import Mathlib

/-!
Shallow embedding of the reconciliation core of the HAProxy kubernetes-ingress
controller (controller package and controller/handler/https.go), together with
theorems settling the specification claims about it.

Conventions:
* Go maps restricted to their present keys are association lists.
* External collaborators (the annotations package handlers, `utils.GetBoolValue`,
  `utils.ParseTime`, the certificate manager, the configuration-API client's
  object semantics) are either modelled from the spec (marked in doc comments)
  or kept as explicit parameters.
* Go functions that can panic are embedded with an explicit panic outcome.
-/

/-- A Go `map[string]string` restricted to its present keys. -/
abbrev AnnMap := List (String × String)

/-- Modelled from the spec: the external `annotations.GetValue` resolver (§6 of
the spec, "returns the first non-empty value found by trying sources in the
given order; returns empty if none"). The real resolver lives in the
annotations package, which is not among the sources. -/
def annGetValue (name : String) : List AnnMap → String
  | [] => ""
  | m :: rest =>
    match m.lookup name with
    | some v => if v = "" then annGetValue name rest else v
    | none => annGetValue name rest

/-- Store resource status (`store.EMPTY/ADDED/MODIFIED/DELETED`); the zero
value of the Go string type is `EMPTY`. -/
inductive RStatus
  | EMPTY
  | ADDED
  | MODIFIED
  | DELETED
deriving DecidableEq, Repr

instance : Inhabited RStatus := ⟨RStatus.EMPTY⟩

/-- A service port (`store.ServicePort`, the field used by the sources). -/
structure KPort where
  port : Int
deriving DecidableEq, Repr

/-- A service in the Observed Store. -/
structure KService where
  name : String
  anns : AnnMap
  ports : List KPort
deriving DecidableEq, Repr

/-- A namespace in the Observed Store. -/
structure KNamespace where
  name : String
  services : List (String × KService)
deriving DecidableEq, Repr

/-- An IngressClass resource in the Observed Store. -/
structure IngressClass where
  controller : String
  status : RStatus
deriving DecidableEq, Repr

/-- The slice of the Observed Store (`store.K8s`) read by the embedded code:
namespaces with their services, ingress classes, and the main config map's
annotation map. -/
structure K8sStore where
  namespaces : List (String × KNamespace)
  ingressClasses : List (String × IngressClass)
  cmAnns : AnnMap
deriving DecidableEq, Repr

/-- `store.IngressPath` (fields used by the sources). -/
structure IngressPath where
  svcName : String
  svcPortInt : Int
  isDefaultBackend : Bool
deriving DecidableEq, Repr

/-- `store.Ingress` (fields used by the sources). The Go zero value (the
config-map sentinel) is `default`. -/
structure Ingress where
  ns : String
  name : String
  anns : AnnMap
  cls : String
  status : RStatus
  defaultBackend : Option IngressPath
deriving DecidableEq, Repr

instance : Inhabited Ingress := ⟨⟨"", "", [], "", RStatus.EMPTY, none⟩⟩

/-- The service looked up by `sslPassthroughEnabled` when a path is given:
`c.Store.Namespaces[ingress.Namespace].Services[path.SvcName]`. A missing
namespace yields `none` (treated like a missing service, the `ok = false`
path of the Go code). -/
def svcOfPath (st : K8sStore) (ing : Ingress) : Option IngressPath → Option KService
  | none => none
  | some p =>
    match st.namespaces.lookup ing.ns with
    | none => none
    | some nsp => nsp.services.lookup p.svcName

/-- The `ssl-passthrough` value `sslPassthroughEnabled` resolves: service
scope first when the path resolves a service, then ingress scope, then
config-map scope (src/unnamed/part_002, lines 154-161). -/
def sslPTAnnValue (st : K8sStore) (ing : Ingress) (path : Option IngressPath) : String :=
  match svcOfPath st ing path with
  | some svc => annGetValue "ssl-passthrough" [svc.anns, ing.anns, st.cmAnns]
  | none => annGetValue "ssl-passthrough" [ing.anns, st.cmAnns]

/-- Embeds `HAProxyController.sslPassthroughEnabled` (src/unnamed/part_002,
lines 150-175). `parseBool` abstracts the external `utils.GetBoolValue`
(`none` = parse error). Returns the function's boolean result together with
the new value of the mutated `cfg.SSLPassthrough` flag. -/
def sslPassthroughEnabled (parseBool : String → Option Bool) (st : K8sStore)
    (flag : Bool) (ing : Ingress) (path : Option IngressPath) : Bool × Bool :=
  let ann := sslPTAnnValue st ing path
  if ann = "" then (false, flag)
  else
    match parseBool ann with
    | none => (false, flag)
    | some enabled => if enabled then (true, true) else (false, flag)

/-- Embeds `HAProxyController.igClassIsSupported` (src/unnamed/part_002,
lines 37-62). `ingressClassArg` is `c.OSArgs.IngressClass`,
`emptyIngressClass` is `c.OSArgs.EmptyIngressClass`, and `controllerClass`
stands for the external constant `CONTROLLER_CLASS`. Returns the admission
decision and the (possibly status-mutated) ingress. -/
def igClassIsSupported (emptyIngressClass : Bool)
    (ingressClassArg controllerClass : String) (st : K8sStore) (ing : Ingress) :
    Bool × Ingress :=
  let igClassAnn := annGetValue "ingress.class" [ing.anns]
  if igClassAnn = "" ∧ emptyIngressClass then (true, ing)
  else
    let fromResource : Option IngressClass :=
      if igClassAnn = "" ∨ igClassAnn ≠ ingressClassArg then
        match st.ingressClasses.lookup ing.cls with
        | some c =>
          if c.status ≠ RStatus.DELETED ∧ c.controller = controllerClass then
            some c
          else none
        | none => none
      else none
    match fromResource with
    | some c =>
      (true,
       if c.status ≠ RStatus.EMPTY then { ing with status := RStatus.MODIFIED }
       else ing)
    | none => if igClassAnn = ingressClassArg then (true, ing) else (false, ing)

/-- Rule variants produced by the frontend-scope annotation handlers, keyed by
the `haproxy.REQ_*` discriminants the targeting switch in
`handleIngressAnnotations` dispatches on; `content` stands for the rest of
each rule's content (its identity). -/
inductive ARule
  | requestRedirect (sslRedirect : Bool) (content : Nat)
  | reqDeny (content : Nat)
  | reqCapture (content : Nat)
  | reqRateLimit (tableName : String) (content : Nat)
  | reqOther (content : Nat)
deriving DecidableEq, Repr

/-- Modelled from the spec: the Rule Registry's `AddRule` (§2, §3 invariant
"Rule Registry never holds two rules with identical (content, frontend)
pair"); an entry records (rule, frontend, ingress-scoped flag). The haproxy
rules package is not among the sources. -/
def addRule {R : Type} [DecidableEq R] (reg : List (R × String × Bool))
    (r : R) (ingressRule : Bool) (frontend : String) : List (R × String × Bool) :=
  if reg.any (fun e => e.1 = r ∧ e.2.1 = frontend) then reg
  else reg ++ [(r, frontend, ingressRule)]

/-- Modelled from the spec: the Rule Registry's `DeleteFrontend` (scoped
removal of every rule attached to one frontend). -/
def deleteFrontendRules {R : Type} (reg : List (R × String × Bool))
    (frontend : String) : List (R × String × Bool) :=
  reg.filter (fun e => e.2.1 ≠ frontend)

/-- Loop state of the rule loop of `handleIngressAnnotations`: the mutated
`cfg.SSLPassthrough` flag, the `frontends` slice carried across iterations,
the Rule Registry, the rate-limit table list, the returned rule-identity
list, and (for the theorems) the trace of per-rule target frontend sets. -/
structure AnnLoopState where
  flag : Bool
  fronts : List String
  registry : List (ARule × String × Bool)
  tables : List String
  ids : List ARule
  assigns : List (ARule × List String)
deriving DecidableEq, Repr

/-- One iteration of the `for _, rule := range result` loop of
`handleIngressAnnotations` (src/unnamed/part_002, lines 205-226): the
targeting switch, the rate-limit table append, the registry inserts and the
identity append. -/
def annStep (parseBool : String → Option Bool) (fHTTP fHTTPS fSSL : String)
    (st : K8sStore) (ing : Ingress) (ingressRule : Bool) (s : AnnLoopState)
    (r : ARule) : AnnLoopState :=
  let frfl : List String × Bool :=
    match r with
    | ARule.requestRedirect ssl _ =>
      (if ssl then [fHTTP] else [fHTTP, fHTTPS], s.flag)
    | ARule.reqDeny _ =>
      let res := sslPassthroughEnabled parseBool st s.flag ing none
      (if res.1 then [fHTTP, fSSL] else s.fronts, res.2)
    | ARule.reqCapture _ =>
      let res := sslPassthroughEnabled parseBool st s.flag ing none
      (if res.1 then [fHTTP, fSSL] else s.fronts, res.2)
    | ARule.reqRateLimit _ _ => (s.fronts, s.flag)
    | ARule.reqOther _ => (s.fronts, s.flag)
  let tables :=
    match r with
    | ARule.reqRateLimit t _ => s.tables ++ [t]
    | _ => s.tables
  { flag := frfl.2
    fronts := frfl.1
    registry := frfl.1.foldl (fun reg f => addRule reg r ingressRule f) s.registry
    tables := tables
    ids := s.ids ++ [r]
    assigns := s.assigns ++ [(r, frfl.1)] }

/-- Embeds `HAProxyController.handleIngressAnnotations` (src/unnamed/part_002,
lines 181-228). The external frontend-scope annotation handlers are
abstracted by their produced rule list `result`; `ing = default` is the
config-map sentinel (`ingress.Equal(&store.Ingress{})`), which flips the
registry tag to global scope. `flag` is the incoming `cfg.SSLPassthrough`,
`reg0`/`tables0` the incoming registry and rate-limit table list. -/
def handleIngressAnns (parseBool : String → Option Bool)
    (fHTTP fHTTPS fSSL : String) (st : K8sStore) (flag : Bool) (ing : Ingress)
    (result : List ARule) (reg0 : List (ARule × String × Bool))
    (tables0 : List String) : AnnLoopState :=
  let ingressRule := ¬ ing = default
  result.foldl (annStep parseBool fHTTP fHTTPS fSSL st ing ingressRule)
    { flag := flag
      fronts := [fHTTP, fHTTPS]
      registry := reg0
      tables := tables0
      ids := []
      assigns := [] }

/-- `models.Bind` (fields used by the sources). -/
structure MBind where
  address : String
  port : Int
  name : String
  acceptProxy : Bool
  v4v6 : Bool
  sslCafile : String
  verify : String
deriving DecidableEq, Repr

/-- `models.Frontend` (fields used by the sources). -/
structure MFrontend where
  name : String
  mode : String
  logFormat : String
  defaultBackend : String
deriving DecidableEq, Repr

/-- `models.Server` (fields used by the sources). -/
structure MServer where
  name : String
  address : String
  port : Int
  sendProxyV2 : String
deriving DecidableEq, Repr

/-- `models.Backend` (fields used by the sources). -/
structure MBackend where
  name : String
  mode : String
deriving DecidableEq, Repr

/-- `models.BackendSwitchingRule` (fields used by the sources). -/
structure MBSRule where
  index : Int
  name : String
deriving DecidableEq, Repr

/-- Replace, in a frontend's bind list, the bind named like `b` by `b` (the
configuration API edits binds by name). -/
def editByName (l : List MBind) (b : MBind) : List MBind :=
  l.map (fun x => if x.name = b.name then b else x)

/-- The live state held behind the configuration-API client, restricted to the
objects the embedded code touches, plus a counter `muts` of mutating API
calls issued (create/edit/delete; gets do not count). Per-frontend bind and
switching-rule lists and per-backend server lists are total maps from
names. The behavior of each call is modelled from the spec's capability
interface (§6: atomic per-object get/create/edit/delete). -/
structure APIState where
  frontends : List MFrontend
  feBinds : String → List MBind
  backends : List MBackend
  beServers : String → List MServer
  bsRules : String → List MBSRule
  muts : Nat

/-- `FrontendGet` success test: the frontend exists. -/
def APIState.frontendExists (s : APIState) (name : String) : Bool :=
  s.frontends.any (fun f => f.name = name)

/-- `FrontendCreate`: appends the frontend, which starts with no binds and no
switching rules. -/
def APIState.frontendCreate (s : APIState) (f : MFrontend) : APIState :=
  { s with frontends := s.frontends ++ [f]
           feBinds := fun n => if n = f.name then [] else s.feBinds n
           bsRules := fun n => if n = f.name then [] else s.bsRules n
           muts := s.muts + 1 }

/-- `FrontendDelete`: removes the frontend with its binds and switching rules. -/
def APIState.frontendDelete (s : APIState) (name : String) : APIState :=
  { s with frontends := s.frontends.filter (fun f => f.name ≠ name)
           feBinds := fun n => if n = name then [] else s.feBinds n
           bsRules := fun n => if n = name then [] else s.bsRules n
           muts := s.muts + 1 }

/-- `FrontendBindsGet`: the bind list of a frontend. -/
def APIState.bindsGet (s : APIState) (fe : String) : List MBind :=
  s.feBinds fe

/-- `FrontendBindCreate`: appends a bind to the frontend's bind list. -/
def APIState.bindCreate (s : APIState) (fe : String) (b : MBind) : APIState :=
  { s with feBinds := fun n => if n = fe then s.feBinds n ++ [b] else s.feBinds n
           muts := s.muts + 1 }

/-- `FrontendBindEdit`: replaces the bind of the same name on the frontend. -/
def APIState.bindEdit (s : APIState) (fe : String) (b : MBind) : APIState :=
  { s with feBinds := fun n => if n = fe then editByName (s.feBinds n) b else s.feBinds n
           muts := s.muts + 1 }

/-- `BackendCreate`: appends the backend, which starts with no servers. -/
def APIState.backendCreate (s : APIState) (b : MBackend) : APIState :=
  { s with backends := s.backends ++ [b]
           beServers := fun n => if n = b.name then [] else s.beServers n
           muts := s.muts + 1 }

/-- `BackendDelete`: removes the backend with its servers. -/
def APIState.backendDelete (s : APIState) (name : String) : APIState :=
  { s with backends := s.backends.filter (fun b => b.name ≠ name)
           beServers := fun n => if n = name then [] else s.beServers n
           muts := s.muts + 1 }

/-- `BackendServerCreate`: appends a server to the backend's server list. -/
def APIState.serverCreate (s : APIState) (be : String) (sv : MServer) : APIState :=
  { s with beServers := fun n => if n = be then s.beServers n ++ [sv] else s.beServers n
           muts := s.muts + 1 }

/-- `BackendSwitchingRuleCreate`: appends a switching rule on the frontend. -/
def APIState.bsRuleCreate (s : APIState) (fe : String) (r : MBSRule) : APIState :=
  { s with bsRules := fun n => if n = fe then s.bsRules n ++ [r] else s.bsRules n
           muts := s.muts + 1 }

/-- `FrontendEnableSSLOffload`: the external client edits the frontend's ssl
parameters; only the fact that a mutating call was issued is tracked. -/
def APIState.enableSSLOffload (s : APIState) (_fe _certDir _alpn : String) : APIState :=
  { s with muts := s.muts + 1 }

/-- `FrontendDisableSSLOffload`: as above, only the call is tracked. -/
def APIState.disableSSLOffload (s : APIState) (_fe : String) : APIState :=
  { s with muts := s.muts + 1 }

/-- The `HTTPS` handler structure (src/controller/handler/https.go, lines
32-41). -/
structure HTTPSHandler where
  enabled : Bool
  ipv4 : Bool
  ipv6 : Bool
  port : Int
  addrIPv4 : String
  addrIPv6 : String
  certDir : String
  alpn : String
deriving DecidableEq, Repr

/-- Embeds `HTTPS.bindList` (https.go, lines 43-74): the v4 and v6 binds of
the HTTPS frontend; each bind's address becomes a loopback address exactly
when passthrough chaining is active, and proxy-protocol acceptance follows
the passthrough flag. -/
def HTTPSHandler.bindList (h : HTTPSHandler) (passthrough : Bool) : List MBind :=
  (if h.ipv4 then
    [{ address := if passthrough then "127.0.0.1" else h.addrIPv4
       port := h.port
       name := "v4"
       acceptProxy := passthrough
       v4v6 := false
       sslCafile := ""
       verify := "" }]
   else []) ++
  (if h.ipv6 then
    [{ address := if passthrough then "::1" else h.addrIPv6
       port := h.port
       name := "v6"
       acceptProxy := passthrough
       v4v6 := true
       sslCafile := ""
       verify := "" }]
   else [])

/-- The slice of the Controller Configuration (`config.ControllerCfg`) used by
the HTTPS handler: the frontend/backend names and the last-applied `HTTPS`
and `SSLPassthrough` booleans. -/
structure PTCfg where
  frontHTTP : String
  frontHTTPS : String
  frontSSL : String
  backSSL : String
  https : Bool
  sslPassthrough : Bool
deriving DecidableEq, Repr

/-- Rules installed on the SSL-passthrough TCP frontend (haproxy/rules
package variants used by `sslPassthroughRules`). -/
inductive TRule
  | reqAcceptContent
  | reqInspectDelay (timeout : Int)
  | reqSetVar (varName scope expr condTest : String)
deriving DecidableEq, Repr

/-- The five rules built by `HTTPS.sslPassthroughRules` (https.go, lines
253-286), in `AddRule` call order. `parseTime` abstracts the external
`utils.ParseTime` and `sniMapPath` the external
`haproxy.GetMapPath(haproxy.MAP_SNI)`. -/
def sslPassthroughRulesList (parseTime : String → Option Int)
    (sniMapPath : String) (cmAnns : AnnMap) : List TRule :=
  let annTimeout := annGetValue "timeout-client" [cmAnns]
  let inspectTimeout : Int :=
    if annTimeout = "" then 5000
    else
      match parseTime annTimeout with
      | some v => v
      | none => 5000
  [TRule.reqAcceptContent,
   TRule.reqInspectDelay inspectTimeout,
   TRule.reqSetVar "sni" "sess" "req_ssl_sni" "",
   TRule.reqSetVar "sni_match" "txn" ("req_ssl_sni,map(" ++ sniMapPath ++ ")") "",
   TRule.reqSetVar "sni_match" "txn"
     ("req_ssl_sni,regsub(^[^.]*,,),map(" ++ sniMapPath ++ ")")
     "!\x7b var(txn.sni_match) -m found \x7d"]

/-- Embeds `HTTPS.sslPassthroughRules` (https.go, lines 253-286): inserts the
five passthrough rules into the Rule Registry for the TCP frontend, tagged
global-scoped (`ingressRule = false`). -/
def sslPassthroughRules (parseTime : String → Option Int) (sniMapPath : String)
    (cmAnns : AnnMap) (frontSSL : String) (reg : List (TRule × String × Bool)) :
    List (TRule × String × Bool) :=
  (sslPassthroughRulesList parseTime sniMapPath cmAnns).foldl
    (fun reg r => addRule reg r false frontSSL) reg

/-- Embeds `HTTPS.toggleSSLPassthrough` (https.go, lines 241-251): edit the
HTTPS frontend's binds to the (loopback or external) bind list and, if
offload is on, re-apply the offload bind parameters. -/
def toggleSSLPassthrough (h : HTTPSHandler) (passthrough : Bool) (cfg : PTCfg)
    (s : APIState) : APIState :=
  let s := (h.bindList passthrough).foldl (fun s b => s.bindEdit cfg.frontHTTPS b) s
  if cfg.https then s.enableSSLOffload cfg.frontHTTPS h.certDir h.alpn else s

/-- The log format of the SSL-passthrough TCP frontend (https.go, line 191). -/
def passthroughLogFormat : String :=
  "\x27%ci:%cp [%t] %ft %b/%s %Tw/%Tc/%Tt %B %ts %ac/%fc/%bc/%sc/%rc %sq/%bq %hr %hs haproxy.MAP_SNI: %[var(sess.sni)]\x27"

/-- Embeds `HTTPS.enableSSLPassthrough` (https.go, lines 186-223), on the
success path of its API calls (the lifecycle claims describe successful
toggles): create the TCP frontend with its binds, the chaining backend with
its single server, the SNI backend-switching rule at index 0, and flip the
HTTPS frontend binds to loopback chaining. -/
def enableSSLPassthrough (h : HTTPSHandler) (cfg : PTCfg) (s : APIState) : APIState :=
  let s := s.frontendCreate
    { name := cfg.frontSSL
      mode := "tcp"
      logFormat := passthroughLogFormat
      defaultBackend := cfg.backSSL }
  let s := (h.bindList false).foldl (fun s b => s.bindCreate cfg.frontSSL b) s
  let s := s.backendCreate { name := cfg.backSSL, mode := "tcp" }
  let s := s.serverCreate cfg.backSSL
    { name := cfg.frontHTTPS
      address := "127.0.0.1"
      port := h.port
      sendProxyV2 := "enabled" }
  let s := s.bsRuleCreate cfg.frontSSL
    { index := 0, name := "%[var(txn.sni_match),field(1,.)]" }
  toggleSSLPassthrough h true cfg s

/-- Embeds `HTTPS.disableSSLPassthrough` (https.go, lines 225-239): delete the
TCP frontend, drop its registry rules, delete the chaining backend, revert
the HTTPS frontend binds to external addresses. Returns the new API state
and the new registry. -/
def disableSSLPassthrough (h : HTTPSHandler) (cfg : PTCfg) (s : APIState)
    (reg : List (TRule × String × Bool)) :
    APIState × List (TRule × String × Bool) :=
  let s := s.frontendDelete cfg.frontSSL
  let reg := deleteFrontendRules reg cfg.frontSSL
  let s := s.backendDelete cfg.backSSL
  (toggleSSLPassthrough h false cfg s, reg)

/-- Outcome of the external `Certificates.HandleTLSSecret` call for the
client-CA secret: resolved file path, the distinguished not-found
condition, or another error. -/
inductive CaResult
  | found (path : String)
  | notFound
  | otherErr
deriving DecidableEq, Repr

/-- The CA file path `handleClientTLSAuth` derives from the secret outcome
(empty on not-found and on other errors, since the Go `caFile` keeps its
zero value then). -/
def caFileOf : CaResult → String
  | CaResult.found p => p
  | CaResult.notFound => ""
  | CaResult.otherErr => ""

/-- The verify mode `handleClientTLSAuth` derives from the
`client-crt-optional` annotation: "optional" when it parses to true,
otherwise "required" (`GetBoolValue` yields false on a parse error). -/
def verifyOf (parseBool : String → Option Bool) (cmAnns : AnnMap) : String :=
  if (parseBool (annGetValue "client-crt-optional" [cmAnns])).getD false then
    "optional"
  else "required"

/-- The per-bind mutation of the edit loops of `handleClientTLSAuth`
(`binds[i].SslCafile = caFile; binds[i].Verify = verify`, or the clearing
assignments with empty strings). -/
def updBind (caFile verify : String) (b : MBind) : MBind :=
  { b with sslCafile := caFile, verify := verify }

/-- The `for i := range binds` edit loop of `handleClientTLSAuth`
(https.go, lines 112-118 and 124-130): each bind gets `SslCafile := caFile`
and `Verify := verify` and is pushed with `FrontendBindEdit`; the failure
of any single edit (`editOk i = false`) returns immediately, leaving the
earlier edits applied. Returns the final API state and whether every edit
succeeded. -/
def tlsEditLoop (editOk : Nat → Bool) (fe caFile verify : String) :
    Nat → List MBind → APIState → APIState × Bool
  | _, [], s => (s, true)
  | i, b :: rest, s =>
    if editOk i then
      tlsEditLoop editOk fe caFile verify (i + 1) rest
        (s.bindEdit fe (updBind caFile verify b))
    else (s, false)

/-- Result of `handleClientTLSAuth`: the reload signal, whether an error was
returned, and the API state after the applied edits. -/
structure TLSAuthOut where
  reload : Bool
  err : Bool
  state : APIState

/-- Embeds `HTTPS.handleClientTLSAuth` (https.go, lines 76-133). `caRes`
abstracts the external `HandleTLSSecret` outcome, `editOk i` the success of
the i-th `FrontendBindEdit` call. Returns `none` where the Go code panics
(`binds[0]` on an empty bind list). On the no-change path the carried
error is non-nil exactly for a non-not-found secret error; on the edit
paths a bind-edit failure returns `(false, err)` and a full pass returns
`(true, nil)`. -/
def handleClientTLSAuth (parseBool : String → Option Bool) (caRes : CaResult)
    (editOk : Nat → Bool) (cmAnns : AnnMap) (frontHTTPS : String)
    (s : APIState) : Option TLSAuthOut :=
  let annTLSAuth := annGetValue "client-ca" [cmAnns]
  if annTLSAuth = "" then some { reload := false, err := false, state := s }
  else
    let binds := s.bindsGet frontHTTPS
    let caFile := caFileOf caRes
    let errCa := caRes = CaResult.otherErr
    let verify := verifyOf parseBool cmAnns
    match binds with
    | [] => none
    | b0 :: _ =>
      if b0.sslCafile = caFile ∧ b0.verify = verify then
        some { reload := false, err := errCa, state := s }
      else if caFile = "" then
        let r := tlsEditLoop editOk frontHTTPS "" "" 0 binds s
        if r.2 then some { reload := true, err := false, state := r.1 }
        else some { reload := false, err := true, state := r.1 }
      else
        let r := tlsEditLoop editOk frontHTTPS caFile verify 0 binds s
        if r.2 then some { reload := true, err := false, state := r.1 }
        else some { reload := false, err := true, state := r.1 }

/-- Result of `HTTPS.Update`: the reload signal, whether an error was
returned, the new controller-configuration slice, the new API state, the
new registry, and whether this pass deleted the passthrough frontend. -/
structure UpdateOut where
  reload : Bool
  err : Bool
  cfg : PTCfg
  state : APIState
  registry : List (TRule × String × Bool)
  deletedFrontSSL : Bool

/-- The ssl-offload section of `HTTPS.Update` (https.go, lines 144-162):
enable or disable offload when the stored `cfg.HTTPS` flag disagrees with
the certificate availability, then run the client-TLS-auth step; a
client-TLS-auth error returns from `Update` early (`return r, err`),
embedded as a `Sum.inl` final result; otherwise `Sum.inr` carries
(reload-so-far, cfg, state) to the passthrough section. `none` embeds a
panic inside `handleClientTLSAuth`. -/
def updateOffloadStep (h1 : HTTPSHandler) (parseBool : String → Option Bool)
    (certsEnabled : Bool) (caRes : CaResult) (editOk : Nat → Bool)
    (cmAnns : AnnMap) (reg : List (TRule × String × Bool)) (cfg : PTCfg)
    (s : APIState) : Option (Sum UpdateOut (Bool × PTCfg × APIState)) :=
  if certsEnabled then
    let enabledNow := ! cfg.https
    let cfgA := if cfg.https then cfg else { cfg with https := true }
    let sA :=
      if cfg.https then s
      else s.enableSSLOffload cfg.frontHTTPS h1.certDir h1.alpn
    match handleClientTLSAuth parseBool caRes editOk cmAnns cfgA.frontHTTPS sA with
    | none => none
    | some t =>
      if t.err then
        some (Sum.inl { reload := t.reload, err := true, cfg := cfgA,
                        state := t.state, registry := reg,
                        deletedFrontSSL := false })
      else some (Sum.inr (enabledNow || t.reload, cfgA, t.state))
  else if cfg.https then
    some (Sum.inr (true, { cfg with https := false },
                   s.disableSSLOffload cfg.frontHTTPS))
  else some (Sum.inr (false, cfg, s))

/-- The ssl-passthrough section of `HTTPS.Update` (https.go, lines 163-178):
when `cfg.SSLPassthrough` is set, create the passthrough frontend if the
`FrontendGet` probe fails and (re-)insert the passthrough rules; when it
is unset and the probe succeeds, tear the passthrough objects down.
Returns (reload, cfg, state, registry, deleted-passthrough-frontend). -/
def updatePassthroughStep (h1 : HTTPSHandler) (parseTime : String → Option Int)
    (sniMapPath : String) (cmAnns : AnnMap) (reg : List (TRule × String × Bool))
    (reload1 : Bool) (cfg1 : PTCfg) (s1 : APIState) :
    Bool × PTCfg × APIState × List (TRule × String × Bool) × Bool :=
  let ftExists := s1.frontendExists cfg1.frontSSL
  if cfg1.sslPassthrough then
    let r1 : Bool × PTCfg × APIState :=
      if ! ftExists then
        (true, { cfg1 with sslPassthrough := true },
         enableSSLPassthrough h1 cfg1 s1)
      else (reload1, cfg1, s1)
    (r1.1, r1.2.1, r1.2.2,
     sslPassthroughRules parseTime sniMapPath cmAnns cfg1.frontSSL reg,
     false)
  else if ftExists then
    let dr := disableSSLPassthrough h1 cfg1 s1 reg
    (true, { cfg1 with sslPassthrough := false }, dr.1, dr.2, true)
  else (reload1, cfg1, s1, reg, false)

/-- Embeds `HTTPS.Update` (https.go, lines 135-184). `certsEnabled` abstracts
`cfg.Certificates.FrontendCertsEnabled()` and `certsUpdated`
`cfg.Certificates.Updated()`. Enable/disable passthrough errors are only
logged in the Go code, so their success path is embedded. Returns `none`
where the embedded code panics. -/
def HTTPSUpdate (h : HTTPSHandler) (parseBool : String → Option Bool)
    (parseTime : String → Option Int) (sniMapPath : String)
    (certsEnabled certsUpdated : Bool) (caRes : CaResult) (editOk : Nat → Bool)
    (cmAnns : AnnMap) (cfg : PTCfg) (s : APIState)
    (reg : List (TRule × String × Bool)) : Option UpdateOut :=
  if ¬ h.enabled then
    some { reload := false, err := false, cfg := cfg, state := s,
           registry := reg, deletedFrontSSL := false }
  else
    let h1 := { h with alpn := annGetValue "tls-alpn" [cmAnns] }
    match updateOffloadStep h1 parseBool certsEnabled caRes editOk cmAnns reg cfg s with
    | none => none
    | some (Sum.inl out) => some out
    | some (Sum.inr (reload1, cfg1, s1)) =>
      let st2 := updatePassthroughStep h1 parseTime sniMapPath cmAnns reg reload1 cfg1 s1
      some { reload := st2.1 || certsUpdated
             err := false
             cfg := st2.2.1
             state := st2.2.2.1
             registry := st2.2.2.2.1
             deletedFrontSSL := st2.2.2.2.2 }

/-- Inputs of `HAProxyController.globalCfg` with the external pieces made
explicit: the fetched live Global section and log-target list (`none` =
fetch error), the custom-resource override, the objects the external
annotation handlers would fold out of the config map (`annGlobal`,
`annLg`), the zero-valued log-target list, `configuration.SetGlobal`
applied with the controller env (`env`), and the results of the two
config-snippet update helpers. -/
structure GlobalIn (G L : Type) where
  liveGlobal : Option G
  liveLg : Option L
  crGlobal : Option G
  annGlobal : G
  annLg : L
  zeroLg : L
  env : G → G
  globalSnippUpdated : Bool
  frontendSnippUpdated : Bool

/-- The desired Global object `globalCfg` builds: the custom-resource
override verbatim when present, else the annotation-folded object; then
`configuration.SetGlobal` over it. -/
def globalDesired {G L : Type} (inp : GlobalIn G L) : G :=
  inp.env
    (match inp.crGlobal with
     | some cr => cr
     | none => inp.annGlobal)

/-- The desired log-target list: populated by the annotation fold only when no
custom-resource override is present (the fold is skipped then, leaving the
zero value). -/
def globalDesiredLg {G L : Type} (inp : GlobalIn G L) : L :=
  match inp.crGlobal with
  | some _ => inp.zeroLg
  | none => inp.annLg

/-- Output of `globalCfg`: the (reload, restart) pair, the pushed Global
object and recreated log-target list if any, and the count of mutating API
calls (full push = 1; log targets = delete-all + create-all = 2; each
snippet update writes once inside its helper). -/
structure GlobalOut (G L : Type) where
  reload : Bool
  restart : Bool
  pushedGlobal : Option G
  recreatedLg : Option L
  muts : Nat
deriving Repr

/-- Embeds `HAProxyController.globalCfg` (src/unnamed/part_001, lines 39-93).
A fetch error returns immediately; a Global diff pushes the full desired
object and marks restart; a log-target diff deletes all live targets,
recreates the desired ones and marks restart; a global-scope snippet
change marks restart; a frontend-scope snippet change marks reload. -/
def globalCfg {G L : Type} [DecidableEq G] [DecidableEq L]
    (inp : GlobalIn G L) : GlobalOut G L :=
  match inp.liveGlobal with
  | none => { reload := false, restart := false, pushedGlobal := none,
              recreatedLg := none, muts := 0 }
  | some live =>
    match inp.liveLg with
    | none => { reload := false, restart := false, pushedGlobal := none,
                recreatedLg := none, muts := 0 }
    | some lg =>
      let newGlobal := globalDesired inp
      let newLg := globalDesiredLg inp
      let gDiff : Bool := newGlobal ≠ live
      let lgDiff : Bool := newLg ≠ lg
      { reload := inp.frontendSnippUpdated
        restart := gDiff || lgDiff || inp.globalSnippUpdated
        pushedGlobal := if gDiff then some newGlobal else none
        recreatedLg := if lgDiff then some newLg else none
        muts := (if gDiff then 1 else 0) + (if lgDiff then 2 else 0) +
          (if inp.globalSnippUpdated then 1 else 0) +
          (if inp.frontendSnippUpdated then 1 else 0) }

/-- Inputs of `HAProxyController.defaultsCfg`, analogous to `GlobalIn`:
fetched live Defaults (`none` = fetch error), custom-resource override,
annotation-folded object, `configuration.SetDefaults` (`setD`), and
whether `DefaultsPushConfiguration` succeeds. -/
structure DefaultsIn (D : Type) where
  liveDefaults : Option D
  crDefaults : Option D
  annDefaults : D
  setD : D → D
  pushOk : Bool

/-- The desired Defaults object `defaultsCfg` builds. -/
def defaultsDesired {D : Type} (inp : DefaultsIn D) : D :=
  inp.setD
    (match inp.crDefaults with
     | some cr => cr
     | none => inp.annDefaults)

/-- Output of `defaultsCfg`: the reload signal (the function has no restart
output at all), the pushed object if any, and the mutating-call count. -/
structure DefaultsOut (D : Type) where
  reload : Bool
  pushedDefaults : Option D
  muts : Nat
deriving Repr

/-- Embeds `HAProxyController.defaultsCfg` (src/unnamed/part_001, lines
95-122): a Defaults diff pushes the full desired object and, if the push
succeeds, marks reload; a failed push returns without the reload mark. -/
def defaultsCfg {D : Type} [DecidableEq D] (inp : DefaultsIn D) : DefaultsOut D :=
  match inp.liveDefaults with
  | none => { reload := false, pushedDefaults := none, muts := 0 }
  | some live =>
    let newD := defaultsDesired inp
    if newD ≠ live then
      if inp.pushOk then
        { reload := true, pushedDefaults := some newD, muts := 1 }
      else
        { reload := false, pushedDefaults := some newD, muts := 1 }
    else { reload := false, pushedDefaults := none, muts := 0 }

/-- Embeds the (reload, restart) aggregation of
`HAProxyController.handleGlobalConfig` (src/unnamed/part_001, lines 30-37):
restart comes from `globalCfg` alone; reload ORs `globalCfg`,
`defaultsCfg` and the `handleDefaultService` result (`svcReload`, whose
pipeline is external). -/
def handleGlobalConfig {G L D : Type} [DecidableEq G] [DecidableEq L]
    [DecidableEq D] (gin : GlobalIn G L) (din : DefaultsIn D)
    (svcReload : Bool) : Bool × Bool :=
  let g := globalCfg gin
  let d := defaultsCfg din
  ((d.reload || g.reload) || svcReload, g.restart)

/-- Go `strings.Split` with a one-character separator, by structural
recursion over the character list (kernel-evaluable, unlike
`String.splitOn`). -/
def goSplitAux (sep : Char) : List Char → List String
  | [] => [""]
  | c :: rest =>
    let r := goSplitAux sep rest
    if c = sep then "" :: r
    else
      match r with
      | [] => [String.mk [c]]
      | g :: gs => String.mk (c :: g.data) :: gs

/-- Go `strings.Split(s, sep)` for a one-character separator. -/
def goSplit (s : String) (sep : Char) : List String :=
  goSplitAux sep s.data

/-- Outcome of `handleDefaultService`: whether the Go code panics, the reload
signal, and the synthetic ingress handed to `setDefaultService` (if
reached). -/
structure DefaultSvcOut where
  panicked : Bool
  reload : Bool
  syntheticIng : Option Ingress
deriving DecidableEq, Repr

/-- Embeds `HAProxyController.handleDefaultService` (src/unnamed/part_001,
lines 125-165). `dsvcData` abstracts the controller-argument lookup
`annotations.GetValue("default-backend-service")`; the downstream
`setDefaultService` pipeline (service contexts, frontend edits) is
abstracted as `setDefault`, returning (reload, error). Validation failures
log and return with no change; an existing service with an empty port list
hits the unguarded `service.Ports[0]` index, a Go panic. -/
def handleDefaultService (dsvcData : String) (st : K8sStore)
    (setDefault : Ingress → Bool × Bool) : DefaultSvcOut :=
  if dsvcData = "" then { panicked := false, reload := false, syntheticIng := none }
  else
    let dsvc := goSplit dsvcData '/'
    if dsvc.length ≠ 2 then
      { panicked := false, reload := false, syntheticIng := none }
    else
      let ns0 := dsvc.headD ""
      let sv0 := (dsvc.drop 1).headD ""
      if ns0 = "" ∨ sv0 = "" then
        { panicked := false, reload := false, syntheticIng := none }
      else
        match st.namespaces.lookup ns0 with
        | none => { panicked := false, reload := false, syntheticIng := none }
        | some nsp =>
          match nsp.services.lookup sv0 with
          | none => { panicked := false, reload := false, syntheticIng := none }
          | some svc =>
            match svc.ports with
            | [] => { panicked := true, reload := false, syntheticIng := none }
            | p0 :: _ =>
              let ing : Ingress :=
                { ns := nsp.name
                  name := "DefaultService"
                  anns := []
                  cls := ""
                  status := RStatus.EMPTY
                  defaultBackend := some
                    { svcName := svc.name
                      svcPortInt := p0.port
                      isDefaultBackend := true } }
              let pr := setDefault ing
              { panicked := false, reload := pr.1, syntheticIng := some ing }

/-! ## Shared lemmas -/

/-- The boolean result of `sslPassthroughEnabled` does not depend on the
incoming flag value (only the returned flag does). -/
theorem sslPT_result_flag_indep (pb : String → Option Bool) (st : K8sStore)
    (b b' : Bool) (ing : Ingress) (path : Option IngressPath) :
    (sslPassthroughEnabled pb st b ing path).1 =
      (sslPassthroughEnabled pb st b' ing path).1 := by
  unfold sslPassthroughEnabled
  by_cases ha : sslPTAnnValue st ing path = ""
  · simp [ha]
  · cases hp : pb (sslPTAnnValue st ing path) with
    | none => simp [ha, hp]
    | some e => cases e <;> simp [ha, hp]

/-! ## C9 -/

/-- C9: the default-service handler is claimed never to abort fatally, but on
a store in which the referenced namespace and service exist while the
service's port list is empty, the unguarded `service.Ports[0]` index makes
the Go code panic: the embedding reports the panic outcome at that input. -/
theorem c9_default_service_empty_ports_panics :
    (handleDefaultService "ns/svc"
      { namespaces :=
          [("ns", { name := "ns",
                    services := [("svc", { name := "svc", anns := [], ports := [] })] })]
        ingressClasses := []
        cmAnns := [] }
      (fun _ => (false, false))).panicked = true := by decide

/-! ## C3 -/

/-- C3 counterexample: with the accept-unclassified flag unset, an ingress
carrying no class annotation is nevertheless admitted, because its
referenced IngressClass resource exists, is not deleted and is controlled
by this controller — refuting "admits an ingress carrying no class
annotation if and only if the accept-unclassified flag is set". -/
theorem c3_unclassified_admitted_without_flag :
    (igClassIsSupported false "haproxy" "haproxy.org/ingress-controller"
      { namespaces := []
        ingressClasses :=
          [("ic1", { controller := "haproxy.org/ingress-controller",
                     status := RStatus.ADDED })]
        cmAnns := [] }
      { ns := "n", name := "i", anns := [], cls := "ic1",
        status := RStatus.EMPTY, defaultBackend := none }).1 = true ∧
    annGetValue "ingress.class" [[]] = "" := by decide

/-- C3 amended: the admission filter admits an ingress exactly when (1) it
carries no class annotation and the accept-unclassified flag is set, or
(2) its referenced IngressClass resource exists, is not deleted and is
controlled by this controller (checked whenever the class annotation is
empty or differs from the configured class name), or (3) its explicit
class annotation equals the controller's configured class name — in
particular an ingress whose class annotation equals the configured class
is always admitted, but an unannotated one can also be admitted without
the flag through its IngressClass resource. -/
theorem c3_amended_admission (e : Bool) (arg cc : String) (st : K8sStore)
    (ing : Ingress) :
    (igClassIsSupported e arg cc st ing).1 = true ↔
      ((annGetValue "ingress.class" [ing.anns] = "" ∧ e = true) ∨
       ((annGetValue "ingress.class" [ing.anns] = "" ∨
         annGetValue "ingress.class" [ing.anns] ≠ arg) ∧
        (∃ c, st.ingressClasses.lookup ing.cls = some c ∧
          c.status ≠ RStatus.DELETED ∧ c.controller = cc)) ∨
       annGetValue "ingress.class" [ing.anns] = arg) := by
  classical
  by_cases h1 : annGetValue "ingress.class" [ing.anns] = "" ∧ e = true
  · simp [igClassIsSupported, h1]
  · by_cases h2 : annGetValue "ingress.class" [ing.anns] = "" ∨
        annGetValue "ingress.class" [ing.anns] ≠ arg
    · cases hlc : st.ingressClasses.lookup ing.cls with
      | none =>
        simp [igClassIsSupported, h1, h2, hlc]
        split_ifs with h4 <;> simp [h4]
      | some c =>
        by_cases h3 : c.status ≠ RStatus.DELETED ∧ c.controller = cc
        · simp [igClassIsSupported, h1, h2, hlc, h3]
        · simp [igClassIsSupported, h1, h2, hlc, h3]
          split_ifs with h4 <;> simp [h4]
    · push_neg at h2
      simp [igClassIsSupported, h1, h2.1, h2.2]
      by_cases h4 : arg = "" ∧ e = true
      · simp [h4]
      · simp [h4]
        split <;> simp

/-! ## C8 -/

/-- C8: when a custom-resource override for the Global (respectively
Defaults) section is present, the desired object is the override (with only
the env/defaults field setter of the configuration package applied, as for
every desired object) and no annotation-derived value reaches the section:
the entire `globalCfg`/`defaultsCfg` outcome is invariant under arbitrary
changes of the annotation-folded objects. -/
theorem c8_cr_override_wins (G L D : Type) [DecidableEq G] [DecidableEq L]
    [DecidableEq D] (inp : GlobalIn G L) (din : DefaultsIn D) (cr : G)
    (crD : D) (a₁ a₂ : G) (l₁ l₂ : L) (d₁ d₂ : D)
    (hg : inp.crGlobal = some cr) (hd : din.crDefaults = some crD) :
    globalDesired inp = inp.env cr ∧
    globalCfg { inp with annGlobal := a₁, annLg := l₁ } =
      globalCfg { inp with annGlobal := a₂, annLg := l₂ } ∧
    defaultsDesired din = din.setD crD ∧
    defaultsCfg { din with annDefaults := d₁ } =
      defaultsCfg { din with annDefaults := d₂ } := by
  refine ⟨?_, ?_, ?_, ?_⟩
  · simp [globalDesired, hg]
  · simp [globalCfg, globalDesired, globalDesiredLg, hg]
  · simp [defaultsDesired, hd]
  · simp [defaultsCfg, defaultsDesired, hd]

/-- C8 witness: a concrete instance with a Global override 7 and a Defaults
override 9 present while annotation-derived values differ. -/
theorem c8_witness :
    globalDesired { liveGlobal := some 0, liveLg := some 0, crGlobal := some 7,
                    annGlobal := 1, annLg := 2, zeroLg := 0, env := id,
                    globalSnippUpdated := false, frontendSnippUpdated := false
                    : GlobalIn Nat Nat } = id 7 ∧
    defaultsDesired { liveDefaults := some 0, crDefaults := some 9,
                      annDefaults := 3, setD := id, pushOk := true
                      : DefaultsIn Nat } = id 9 :=
  ⟨(c8_cr_override_wins Nat Nat Nat
      { liveGlobal := some 0, liveLg := some 0, crGlobal := some 7,
        annGlobal := 1, annLg := 2, zeroLg := 0, env := id,
        globalSnippUpdated := false, frontendSnippUpdated := false }
      { liveDefaults := some 0, crDefaults := some 9, annDefaults := 3,
        setD := id, pushOk := true }
      7 9 1 1 2 2 3 3 rfl rfl).1,
   (c8_cr_override_wins Nat Nat Nat
      { liveGlobal := some 0, liveLg := some 0, crGlobal := some 7,
        annGlobal := 1, annLg := 2, zeroLg := 0, env := id,
        globalSnippUpdated := false, frontendSnippUpdated := false }
      { liveDefaults := some 0, crDefaults := some 9, annDefaults := 3,
        setD := id, pushOk := true }
      7 9 1 1 2 2 3 3 rfl rfl).2.2.1⟩

/-! ## C7 -/

/-- C7: the Global synchronizer marks restart whenever the desired Global
section differs from the live one (pushing the full desired object),
whenever the log-target list differs (recreating the full desired list
after a delete-all), and whenever the global-scope snippet changed; its
reload signal is exactly the frontend-scope snippet change; the Defaults
synchronizer marks reload when the Defaults section differs (and the push
succeeds) and contributes nothing to the pass's restart flag, which comes
from `globalCfg` alone. -/
theorem c7_change_severity (G L D : Type) [DecidableEq G] [DecidableEq L]
    [DecidableEq D] (gin : GlobalIn G L) (din : DefaultsIn D) (g : G) (lg : L)
    (d : D) (svcReload : Bool) (hg : gin.liveGlobal = some g)
    (hlg : gin.liveLg = some lg) (hd : din.liveDefaults = some d) :
    ((globalDesired gin ≠ g → (globalCfg gin).restart = true ∧
        (globalCfg gin).pushedGlobal = some (globalDesired gin)) ∧
     (globalDesiredLg gin ≠ lg → (globalCfg gin).restart = true ∧
        (globalCfg gin).recreatedLg = some (globalDesiredLg gin)) ∧
     (gin.globalSnippUpdated = true → (globalCfg gin).restart = true) ∧
     ((globalCfg gin).reload = gin.frontendSnippUpdated)) ∧
    (defaultsDesired din ≠ d → din.pushOk = true →
      (defaultsCfg din).reload = true) ∧
    ((handleGlobalConfig gin din svcReload).2 = (globalCfg gin).restart) := by
  refine ⟨⟨?_, ?_, ?_, ?_⟩, ?_, ?_⟩
  · intro hne
    simp [globalCfg, hg, hlg, hne]
  · intro hne
    simp [globalCfg, hg, hlg, hne]
  · intro hs
    simp [globalCfg, hg, hlg, hs]
  · simp [globalCfg, hg, hlg]
  · intro hne hok
    simp [defaultsCfg, hd, hne, hok]
  · simp [handleGlobalConfig]

/-- C7 witness: a concrete pass in which Global, log targets and Defaults all
differ from live state. -/
theorem c7_witness :
    (globalCfg { liveGlobal := some 0, liveLg := some 0, crGlobal := none,
                 annGlobal := 1, annLg := 1, zeroLg := 0, env := id,
                 globalSnippUpdated := false, frontendSnippUpdated := false
                 : GlobalIn Nat Nat }).restart = true ∧
    (defaultsCfg { liveDefaults := some 0, crDefaults := none,
                   annDefaults := 5, setD := id, pushOk := true
                   : DefaultsIn Nat }).reload = true := by
  have h := c7_change_severity Nat Nat Nat
    { liveGlobal := some 0, liveLg := some 0, crGlobal := none,
      annGlobal := 1, annLg := 1, zeroLg := 0, env := id,
      globalSnippUpdated := false, frontendSnippUpdated := false }
    { liveDefaults := some 0, crDefaults := none, annDefaults := 5,
      setD := id, pushOk := true }
    0 0 0 false rfl rfl rfl
  exact ⟨(h.1.1 (by decide)).1, h.2.1 (by decide) rfl⟩

/-- The offload section of `Update` never changes the `SSLPassthrough` flag
and never reports a passthrough-frontend deletion. -/
theorem offStep_sslPassthrough_inv (h1 : HTTPSHandler)
    (pb : String → Option Bool) (ce : Bool) (caRes : CaResult)
    (eok : Nat → Bool) (cm : AnnMap) (reg : List (TRule × String × Bool))
    (cfg : PTCfg) (s : APIState) :
    (∀ o, updateOffloadStep h1 pb ce caRes eok cm reg cfg s = some (Sum.inl o) →
      o.cfg.sslPassthrough = cfg.sslPassthrough ∧ o.deletedFrontSSL = false) ∧
    (∀ rel c st, updateOffloadStep h1 pb ce caRes eok cm reg cfg s =
        some (Sum.inr (rel, c, st)) → c.sslPassthrough = cfg.sslPassthrough) := by
  unfold updateOffloadStep
  by_cases hce : ce = true
  · by_cases hh : cfg.https = true
    · cases ht : handleClientTLSAuth pb caRes eok cm cfg.frontHTTPS s with
      | none => simp [hce, hh, ht]
      | some t =>
        by_cases hte : t.err = true
        · simp [hce, hh, ht, hte]
        · simp [hce, hh, ht, hte]
    · cases ht : handleClientTLSAuth pb caRes eok cm cfg.frontHTTPS
          (s.enableSSLOffload cfg.frontHTTPS h1.certDir h1.alpn) with
      | none => simp [hce, hh, ht]
      | some t =>
        by_cases hte : t.err = true
        · simp [hce, hh, ht, hte]
        · simp [hce, hh, ht, hte]
  · by_cases hh : cfg.https = true
    · simp [hce, hh]
    · simp [hce, hh]

/-- The passthrough section of `Update` leaves the `SSLPassthrough` flag with
its incoming value, and reports a passthrough-frontend deletion only when
the incoming flag is false. -/
theorem ptStep_sslPassthrough_inv (h1 : HTTPSHandler)
    (pt : String → Option Int) (smp : String) (cm : AnnMap)
    (reg : List (TRule × String × Bool)) (rel1 : Bool) (cfg1 : PTCfg)
    (s1 : APIState) :
    ((updatePassthroughStep h1 pt smp cm reg rel1 cfg1 s1).2.1).sslPassthrough =
      cfg1.sslPassthrough ∧
    ((updatePassthroughStep h1 pt smp cm reg rel1 cfg1 s1).2.2.2.2 = true →
      cfg1.sslPassthrough = false) := by
  unfold updatePassthroughStep
  by_cases hp : cfg1.sslPassthrough = true
  · by_cases hf : s1.frontendExists cfg1.frontSSL = true
    · simp [hp, hf]
    · simp [hp, hf]
  · by_cases hf : s1.frontendExists cfg1.frontSSL = true
    · simp [hp, hf]
    · simp [hp, hf]

/-! ## C10 -/

/-- C10: within a pass the `SSLPassthrough` flag is monotone under
`sslPassthroughEnabled` — the new flag is the old one OR-ed with the
function's result, so a resolution to true sets it and a resolution to
false or to an unparsable value leaves it unchanged; and `HTTPS.Update`
leaves the flag with its incoming value, its only false-assignment lying
in the branch that deletes the passthrough frontend, which is taken only
when the flag is already false. -/
theorem c10_passthrough_flag_monotone (pb : String → Option Bool)
    (st : K8sStore) (flag : Bool) (ing : Ingress) (path : Option IngressPath)
    (h : HTTPSHandler) (pt : String → Option Int) (smp : String)
    (ce cu : Bool) (caRes : CaResult) (eok : Nat → Bool) (cm : AnnMap)
    (cfg : PTCfg) (s : APIState) (reg : List (TRule × String × Bool))
    (u : UpdateOut) :
    ((sslPassthroughEnabled pb st flag ing path).2 =
      (flag || (sslPassthroughEnabled pb st flag ing path).1)) ∧
    (pb (sslPTAnnValue st ing path) ≠ some true →
      (sslPassthroughEnabled pb st flag ing path).1 = false) ∧
    (HTTPSUpdate h pb pt smp ce cu caRes eok cm cfg s reg = some u →
      u.cfg.sslPassthrough = cfg.sslPassthrough ∧
      (u.deletedFrontSSL = true → cfg.sslPassthrough = false)) := by
  refine ⟨?_, ?_, ?_⟩
  · unfold sslPassthroughEnabled
    by_cases ha : sslPTAnnValue st ing path = ""
    · simp [ha]
    · cases hp : pb (sslPTAnnValue st ing path) with
      | none => simp [ha, hp]
      | some e => cases e <;> simp [ha, hp]
  · intro hne
    unfold sslPassthroughEnabled
    by_cases ha : sslPTAnnValue st ing path = ""
    · simp [ha]
    · cases hp : pb (sslPTAnnValue st ing path) with
      | none => simp [ha, hp]
      | some e =>
        cases e
        · simp [ha, hp]
        · exact absurd hp hne
  · intro hu
    unfold HTTPSUpdate at hu
    by_cases he : h.enabled = true
    · rw [if_neg (by simp [he])] at hu
      cases ho : updateOffloadStep { h with alpn := annGetValue "tls-alpn" [cm] }
          pb ce caRes eok cm reg cfg s with
      | none => simp [ho] at hu
      | some x =>
        cases x with
        | inl o =>
          simp only [ho, Option.some.injEq] at hu
          subst hu
          obtain ⟨ha, hb⟩ :=
            (offStep_sslPassthrough_inv _ pb ce caRes eok cm reg cfg s).1 o ho
          exact ⟨ha, fun hd => absurd (hb ▸ hd) (by simp)⟩
        | inr y =>
          obtain ⟨rel1, cfg1, s1⟩ := y
          simp only [ho, Option.some.injEq] at hu
          subst hu
          have hc1 := (offStep_sslPassthrough_inv _ pb ce caRes eok cm reg cfg s).2
            rel1 cfg1 s1 ho
          have hpt := ptStep_sslPassthrough_inv
            { h with alpn := annGetValue "tls-alpn" [cm] } pt smp cm reg rel1 cfg1 s1
          constructor
          · simpa [hc1] using hpt.1
          · intro hd
            rw [← hc1]
            exact hpt.2 hd
    · rw [if_pos he] at hu
      simp only [Option.some.injEq] at hu
      subst hu
      simp

/-- C10 witness: with an unparsable value the flag result is false, and a
concrete `Update` run returns the flag unchanged. -/
theorem c10_witness :
    (sslPassthroughEnabled (fun _ => none)
      { namespaces := [], ingressClasses := [], cmAnns := [] } false default
      none).1 = false ∧
    ({ reload := false, err := false,
       cfg := { frontHTTP := "http", frontHTTPS := "https", frontSSL := "ssl",
                backSSL := "sslbk", https := false, sslPassthrough := false },
       state := { frontends := [], feBinds := fun _ => [], backends := [],
                  beServers := fun _ => [], bsRules := fun _ => [], muts := 0 },
       registry := [], deletedFrontSSL := false } : UpdateOut).cfg.sslPassthrough =
      ({ frontHTTP := "http", frontHTTPS := "https", frontSSL := "ssl",
         backSSL := "sslbk", https := false, sslPassthrough := false } : PTCfg).sslPassthrough := by
  have h := c10_passthrough_flag_monotone (fun _ => none)
    { namespaces := [], ingressClasses := [], cmAnns := [] } false default none
    { enabled := false, ipv4 := true, ipv6 := true, port := 443,
      addrIPv4 := "0.0.0.0", addrIPv6 := "::", certDir := "c", alpn := "" }
    (fun _ => none) "m" false false CaResult.notFound (fun _ => true) []
    { frontHTTP := "http", frontHTTPS := "https", frontSSL := "ssl",
      backSSL := "sslbk", https := false, sslPassthrough := false }
    { frontends := [], feBinds := fun _ => [], backends := [],
      beServers := fun _ => [], bsRules := fun _ => [], muts := 0 }
    []
    { reload := false, err := false,
      cfg := { frontHTTP := "http", frontHTTPS := "https", frontSSL := "ssl",
               backSSL := "sslbk", https := false, sslPassthrough := false },
      state := { frontends := [], feBinds := fun _ => [], backends := [],
                 beServers := fun _ => [], bsRules := fun _ => [], muts := 0 },
      registry := [], deletedFrontSSL := false }
  exact ⟨h.2.1 (by decide), (h.2.2 rfl).1⟩

/-! ## C1 -/

/-- C1 counterexample: the `frontends` slice is initialized once before the
rule loop, not per rule — after a redirect rule with SSL-redirect=true has
restricted it to {HTTP}, a following deny rule whose ssl-passthrough
option resolves to false inherits {HTTP} instead of the claimed default
{HTTP, HTTPS}. -/
theorem c1_deny_inherits_restricted_frontends :
    ((handleIngressAnns (fun _ => none) "http" "https" "ssl"
        { namespaces := [], ingressClasses := [], cmAnns := [] } false
        { ns := "default", name := "web", anns := [], cls := "",
          status := RStatus.EMPTY, defaultBackend := none }
        [ARule.requestRedirect true 0, ARule.reqDeny 1] [] []).assigns =
      [(ARule.requestRedirect true 0, ["http"]),
       (ARule.reqDeny 1, ["http"])]) ∧
    (sslPassthroughEnabled (fun _ => none)
        { namespaces := [], ingressClasses := [], cmAnns := [] } false
        { ns := "default", name := "web", anns := [], cls := "",
          status := RStatus.EMPTY, defaultBackend := none } none).1 = false ∧
    ["http"] ≠ ["http", "https"] := by decide

/-- Every (rule, target-frontends) pair appended by the rule loop satisfies
the targeting discipline: redirect rules get {HTTP} or {HTTP, HTTPS}
according to their SSL-redirect flag, and deny/capture rules get
{HTTP, SSL frontend} whenever the ssl-passthrough option resolves to true. -/
theorem annLoop_assigns_spec (pb : String → Option Bool)
    (fH fS fSSL : String) (st : K8sStore) (ing : Ingress) (ir : Bool) :
    ∀ (rules : List ARule) (s0 : AnnLoopState),
      (∀ p ∈ s0.assigns,
        (∀ ssl c, p.1 = ARule.requestRedirect ssl c →
          p.2 = if ssl then [fH] else [fH, fS]) ∧
        (∀ c, (p.1 = ARule.reqDeny c ∨ p.1 = ARule.reqCapture c) →
          (sslPassthroughEnabled pb st false ing none).1 = true →
          p.2 = [fH, fSSL])) →
      ∀ p ∈ (rules.foldl (annStep pb fH fS fSSL st ing ir) s0).assigns,
        (∀ ssl c, p.1 = ARule.requestRedirect ssl c →
          p.2 = if ssl then [fH] else [fH, fS]) ∧
        (∀ c, (p.1 = ARule.reqDeny c ∨ p.1 = ARule.reqCapture c) →
          (sslPassthroughEnabled pb st false ing none).1 = true →
          p.2 = [fH, fSSL]) := by
  intro rules
  induction rules with
  | nil => intro s0 h0; exact h0
  | cons r0 rest ih =>
    intro s0 h0
    refine ih (annStep pb fH fS fSSL st ing ir s0 r0) ?_
    intro p hp
    have hmem : p ∈ s0.assigns ∨
        p = (r0, (annStep pb fH fS fSSL st ing ir s0 r0).fronts) := by
      cases r0 <;> simp [annStep] at hp ⊢ <;>
        rcases hp with hp | hp <;> simp [hp]
    rcases hmem with hold | hnew
    · exact h0 p hold
    · subst hnew
      cases r0 with
      | requestRedirect ssl c =>
        constructor
        · intro ssl' c' heq
          simp [annStep] at heq ⊢
          obtain ⟨rfl, rfl⟩ := heq
          cases ssl <;> simp [annStep]
        · intro c' heq
          rcases heq with heq | heq <;> simp [annStep] at heq
      | reqDeny c =>
        constructor
        · intro ssl' c' heq
          simp [annStep] at heq
        · intro c' _ hssl
          have hres := sslPT_result_flag_indep pb st s0.flag false ing none
          simp [annStep, hres, hssl]
      | reqCapture c =>
        constructor
        · intro ssl' c' heq
          simp [annStep] at heq
        · intro c' _ hssl
          have hres := sslPT_result_flag_indep pb st s0.flag false ing none
          simp [annStep, hres, hssl]
      | reqRateLimit t c =>
        constructor
        · intro ssl' c' heq
          simp [annStep] at heq
        · intro c' heq
          rcases heq with heq | heq <;> simp [annStep] at heq
      | reqOther c =>
        constructor
        · intro ssl' c' heq
          simp [annStep] at heq
        · intro c' heq
          rcases heq with heq | heq <;> simp [annStep] at heq

/-- C1 amended: in the annotation-to-rule pipeline the target frontend set is
initialized once per invocation to {HTTP, HTTPS} and carried across the
produced rules (not recomputed from the default per rule): a redirect rule
with SSL-redirect=true is attached only to the HTTP frontend and one with
SSL-redirect=false to both HTTP and HTTPS; a deny or capture rule of an
ingress for which the ssl-passthrough option resolves to true (looked up
at this call site ingress-scope first, then config-map scope — no service
scope, since the per-rule check passes a nil path) is attached to HTTP and
the SSL-passthrough frontend and never to HTTPS; any other rule inherits
the set left by the preceding rule. -/
theorem c1_amended_rule_targeting (pb : String → Option Bool)
    (fH fS fSSL : String) (st : K8sStore) (flag : Bool) (ing : Ingress)
    (result : List ARule) (reg0 : List (ARule × String × Bool))
    (tables0 : List String) (r : ARule) (fs : List String)
    (hmem : (r, fs) ∈
      (handleIngressAnns pb fH fS fSSL st flag ing result reg0 tables0).assigns) :
    (∀ ssl c, r = ARule.requestRedirect ssl c →
      fs = if ssl then [fH] else [fH, fS]) ∧
    (∀ c, (r = ARule.reqDeny c ∨ r = ARule.reqCapture c) →
      (sslPassthroughEnabled pb st flag ing none).1 = true → fs = [fH, fSSL]) ∧
    (fS ≠ fH → fS ≠ fSSL →
      ((∃ c, r = ARule.requestRedirect true c) ∨
       ((∃ c, r = ARule.reqDeny c ∨ r = ARule.reqCapture c) ∧
         (sslPassthroughEnabled pb st flag ing none).1 = true) →
       fS ∉ fs)) := by
  have hspec := annLoop_assigns_spec pb fH fS fSSL st ing (¬ ing = default)
    result
    { flag := flag, fronts := [fH, fS], registry := reg0, tables := tables0,
      ids := [], assigns := [] }
    (by intro p hp; simp at hp)
    (r, fs) (by exact hmem)
  have hflag := sslPT_result_flag_indep pb st flag false ing none
  refine ⟨hspec.1, ?_, ?_⟩
  · intro c hrc hssl
    exact hspec.2 c hrc (hflag ▸ hssl)
  · intro hSH hSSSL hcase
    rcases hcase with ⟨c, hc⟩ | ⟨⟨c, hc⟩, hssl⟩
    · have := hspec.1 true c hc
      simp only [if_pos rfl] at this
      subst this
      simp
      intro hq
      exact hSH hq
    · have := hspec.2 c hc (hflag ▸ hssl)
      subst this
      simp
      constructor
      · intro hq; exact hSH hq
      · intro hq; exact hSSSL hq

/-- C1 witness: a deny rule of an ingress whose ssl-passthrough annotation
resolves to true is attached to the HTTP and SSL-passthrough frontends and
not to HTTPS. -/
theorem c1_witness :
    (["http", "ssl"] : List String) = ["http", "ssl"] ∧
    ("https" : String) ∉ (["http", "ssl"] : List String) := by
  have h := c1_amended_rule_targeting
    (fun s => if s = "true" then some true else none) "http" "https" "ssl"
    { namespaces := [], ingressClasses := [], cmAnns := [] } false
    { ns := "default", name := "web", anns := [("ssl-passthrough", "true")],
      cls := "", status := RStatus.EMPTY, defaultBackend := none }
    [ARule.reqDeny 0] [] [] (ARule.reqDeny 0) ["http", "ssl"] (by decide)
  exact ⟨h.2.1 0 (Or.inl rfl) (by decide),
         h.2.2 (by decide) (by decide)
           (Or.inr ⟨⟨0, Or.inl rfl⟩, by decide⟩)⟩

/-! ## Bind-edit loop lemmas (shared by the client-TLS-auth claims) -/

/-- `updBind` keeps the bind's name. -/
theorem updBind_name (ca v : String) (b : MBind) : (updBind ca v b).name = b.name := rfl

/-- Replacing by name in a list in which only the middle element carries that
name replaces exactly that element. -/
theorem editByName_replace (A B : List MBind) (b b' : MBind)
    (hname : b'.name = b.name)
    (hA : ∀ x ∈ A, x.name ≠ b.name) (hB : ∀ x ∈ B, x.name ≠ b.name) :
    editByName (A ++ b :: B) b' = A ++ b' :: B := by
  unfold editByName
  rw [List.map_append]
  congr 1
  · induction A with
    | nil => rfl
    | cons a A ihA =>
      have ha : a.name ≠ b'.name := fun hq => hA a (by simp) (hq.trans hname)
      simp only [List.map_cons]
      rw [if_neg ha, ihA (fun x hx => hA x (by simp [hx]))]
  · simp only [List.map_cons]
    rw [if_pos hname.symm]
    congr 1
    induction B with
    | nil => rfl
    | cons a B ihB =>
      have ha : a.name ≠ b'.name := fun hq => hB a (by simp) (hq.trans hname)
      simp only [List.map_cons]
      rw [if_neg ha, ihB (fun x hx => hB x (by simp [hx]))]

/-- When every edit succeeds, the TLS edit loop is the fold of the bind edits
and reports success. -/
theorem tlsEditLoop_all_ok (eok : Nat → Bool) (fe ca v : String) :
    ∀ (todo : List MBind) (i : Nat) (s : APIState), (∀ j, eok j = true) →
      tlsEditLoop eok fe ca v i todo s =
        (todo.foldl (fun s b => s.bindEdit fe (updBind ca v b)) s, true) := by
  intro todo
  induction todo with
  | nil => intro i s hok; rfl
  | cons b rest ih =>
    intro i s hok
    simp only [tlsEditLoop, hok i, if_true, List.foldl_cons]
    exact ih (i + 1) (s.bindEdit fe (updBind ca v b)) hok

/-- When the (i+k)-th edit is the first to fail, the TLS edit loop applies
exactly the first k edits and reports failure. -/
theorem tlsEditLoop_first_failure (eok : Nat → Bool) (fe ca v : String) :
    ∀ (todo : List MBind) (k i : Nat) (s : APIState),
      (∀ j, j < k → eok (i + j) = true) → eok (i + k) = false →
      k < todo.length →
      tlsEditLoop eok fe ca v i todo s =
        ((todo.take k).foldl (fun s b => s.bindEdit fe (updBind ca v b)) s,
         false) := by
  intro todo
  induction todo with
  | nil => intro k i s _ _ hk; simp at hk
  | cons b rest ih =>
    intro k i s hlt hk hklen
    cases k with
    | zero =>
      simp only [Nat.add_zero] at hk
      simp [tlsEditLoop, hk]
    | succ k' =>
      have h0 : eok i = true := by
        have := hlt 0 (Nat.succ_pos k')
        simpa using this
      simp only [tlsEditLoop, h0, if_true, List.take_succ_cons, List.foldl_cons]
      refine ih k' (i + 1) (s.bindEdit fe (updBind ca v b)) ?_ ?_ ?_
      · intro j hj
        have := hlt (j + 1) (Nat.succ_lt_succ hj)
        simpa [Nat.add_assoc, Nat.add_comm 1 j] using this
      · simpa [Nat.add_assoc, Nat.add_comm 1 k'] using hk
      · simpa using Nat.lt_of_succ_lt_succ (Nat.succ_lt_succ hklen)

/-- A bind edit changes only the edited frontend's bind list, by name
replacement. -/
theorem bindEdit_feBinds (s : APIState) (fe : String) (b : MBind) :
    (s.bindEdit fe b).feBinds fe = editByName (s.feBinds fe) b := by
  simp [APIState.bindEdit]

/-- Folding the per-bind edits over a middle segment of a frontend's bind
list (all bind names distinct) rewrites exactly that segment. -/
theorem foldl_bindEdit_feBinds (fe ca v : String) :
    ∀ (todo pre rest : List MBind) (s : APIState),
      s.feBinds fe = pre.map (updBind ca v) ++ todo ++ rest →
      ((pre ++ todo ++ rest).map MBind.name).Nodup →
      (todo.foldl (fun s b => s.bindEdit fe (updBind ca v b)) s).feBinds fe =
        pre.map (updBind ca v) ++ todo.map (updBind ca v) ++ rest := by
  intro todo
  induction todo with
  | nil =>
    intro pre rest s hb _
    simpa using hb
  | cons b todo' ih =>
    intro pre rest s hb hnd
    have hbn : b.name ∉ (pre.map MBind.name) ∧
        b.name ∉ ((todo' ++ rest).map MBind.name) := by
      have h1 : ((pre ++ b :: (todo' ++ rest)).map MBind.name).Nodup := by
        simpa [List.append_assoc] using hnd
      rw [List.map_append, List.nodup_append] at h1
      constructor
      · intro hmem
        exact h1.2.2 hmem (by simp)
      · have := h1.2.1
        simp only [List.map_cons, List.nodup_cons] at this
        exact fun hmem => this.1 hmem
    have hstep : ((s.bindEdit fe (updBind ca v b)).feBinds fe) =
        (pre ++ [b]).map (updBind ca v) ++ todo' ++ rest := by
      rw [bindEdit_feBinds, hb]
      have := editByName_replace (pre.map (updBind ca v)) (todo' ++ rest) b
        (updBind ca v b) (updBind_name ca v b)
        (by
          intro x hx
          obtain ⟨p, hp, rfl⟩ := List.mem_map.mp hx
          rw [updBind_name]
          exact fun hq => hbn.1 (List.mem_map.mpr ⟨p, hp, hq⟩))
        (by
          intro x hx
          exact fun hq => hbn.2 (List.mem_map.mpr ⟨x, hx, hq⟩))
      calc editByName (List.map (updBind ca v) pre ++ b :: todo' ++ rest)
            (updBind ca v b)
          = editByName (List.map (updBind ca v) pre ++ b :: (todo' ++ rest))
            (updBind ca v b) := by simp [List.append_assoc]
        _ = List.map (updBind ca v) pre ++ updBind ca v b :: (todo' ++ rest) :=
            this
        _ = (pre ++ [b]).map (updBind ca v) ++ todo' ++ rest := by
            simp [List.append_assoc]
    simp only [List.foldl_cons]
    have hres := ih (pre ++ [b]) rest (s.bindEdit fe (updBind ca v b)) hstep
      (by
        have : (pre ++ [b]) ++ todo' ++ rest = pre ++ (b :: todo') ++ rest := by
          simp [List.append_assoc]
        rw [this]
        exact hnd)
    rw [hres]
    simp [List.append_assoc]

/-! ## C5 -/

/-- C5 amended: the mutual-TLS client-auth step resolves the CA-bundle
reference and the optional flag from config-map annotations; when the CA
reference annotation is absent the step returns immediately without
touching any bind (it does not clear anything); when it is present the
step compares the resolved CA file and verify mode against the first live
bind and is a no-op when unchanged; when the resolved CA-file path is
empty (secret not found) it clears CA file and verify mode on every bind;
otherwise it sets the CA file and verify mode ("required", or "optional"
when client-crt-optional parses true) on every bind and signals reload. -/
theorem c5_amended_client_tls (pb : String → Option Bool) (caRes : CaResult)
    (eok : Nat → Bool) (cm : AnnMap) (fe : String) (s : APIState)
    (b0 : MBind) (rest : List MBind) :
    (annGetValue "client-ca" [cm] = "" →
      handleClientTLSAuth pb caRes eok cm fe s =
        some { reload := false, err := false, state := s }) ∧
    (annGetValue "client-ca" [cm] ≠ "" →
      s.feBinds fe = b0 :: rest →
      b0.sslCafile = caFileOf caRes → b0.verify = verifyOf pb cm →
      handleClientTLSAuth pb caRes eok cm fe s =
        some { reload := false, err := decide (caRes = CaResult.otherErr),
               state := s }) ∧
    (annGetValue "client-ca" [cm] ≠ "" →
      s.feBinds fe = b0 :: rest →
      ¬(b0.sslCafile = caFileOf caRes ∧ b0.verify = verifyOf pb cm) →
      ((b0 :: rest).map MBind.name).Nodup →
      (∀ j, eok j = true) →
      caFileOf caRes = "" →
      ∃ s', handleClientTLSAuth pb caRes eok cm fe s =
          some { reload := true, err := false, state := s' } ∧
        s'.feBinds fe = (b0 :: rest).map (updBind "" "")) ∧
    (annGetValue "client-ca" [cm] ≠ "" →
      s.feBinds fe = b0 :: rest →
      ¬(b0.sslCafile = caFileOf caRes ∧ b0.verify = verifyOf pb cm) →
      ((b0 :: rest).map MBind.name).Nodup →
      (∀ j, eok j = true) →
      caFileOf caRes ≠ "" →
      ∃ s', handleClientTLSAuth pb caRes eok cm fe s =
          some { reload := true, err := false, state := s' } ∧
        s'.feBinds fe =
          (b0 :: rest).map (updBind (caFileOf caRes) (verifyOf pb cm))) := by
  refine ⟨?_, ?_, ?_, ?_⟩
  · intro hempty
    simp [handleClientTLSAuth, hempty]
  · intro hann hbinds hca hv
    unfold handleClientTLSAuth
    rw [if_neg hann]
    simp only [APIState.bindsGet, hbinds]
    rw [if_pos ⟨hca, hv⟩]
  · intro hann hbinds hmatch hnd hok hcaEmpty
    unfold handleClientTLSAuth
    rw [if_neg hann]
    simp only [APIState.bindsGet, hbinds]
    rw [if_neg hmatch, if_pos hcaEmpty]
    rw [tlsEditLoop_all_ok eok fe "" "" (b0 :: rest) 0 s hok]
    refine ⟨_, rfl, ?_⟩
    have := foldl_bindEdit_feBinds fe "" "" (b0 :: rest) [] [] s
      (by simpa using hbinds) (by simpa using hnd)
    simpa using this
  · intro hann hbinds hmatch hnd hok hcaNe
    unfold handleClientTLSAuth
    rw [if_neg hann]
    simp only [APIState.bindsGet, hbinds]
    rw [if_neg hmatch, if_neg hcaNe]
    rw [tlsEditLoop_all_ok eok fe (caFileOf caRes) (verifyOf pb cm)
      (b0 :: rest) 0 s hok]
    refine ⟨_, rfl, ?_⟩
    have := foldl_bindEdit_feBinds fe (caFileOf caRes) (verifyOf pb cm)
      (b0 :: rest) [] [] s (by simpa using hbinds) (by simpa using hnd)
    simpa using this

/-- A live API state with stale client-CA configuration on both HTTPS binds,
used to exercise the client-TLS-auth step with an absent annotation. -/
def c5StaleState : APIState :=
  { frontends := [{ name := "https", mode := "http", logFormat := "",
                    defaultBackend := "" }]
    feBinds := fun n =>
      if n = "https" then
        [{ address := "1.2.3.4", port := 443, name := "v4", acceptProxy := false,
           v4v6 := false, sslCafile := "old", verify := "required" },
         { address := "::", port := 443, name := "v6", acceptProxy := false,
           v4v6 := true, sslCafile := "old", verify := "required" }]
      else []
    backends := []
    beServers := fun _ => []
    bsRules := fun _ => []
    muts := 0 }

/-- C5 counterexample: with the client-ca annotation absent (the CA reference
is empty) and live binds still carrying a CA file, the step returns
immediately — it does not clear the CA file and verify mode on the binds,
refuting the claim's "when the CA reference is empty it clears the CA file
and verify mode on every bind". -/
theorem c5_empty_reference_does_not_clear :
    handleClientTLSAuth (fun _ => none) CaResult.notFound (fun _ => true) []
      "https" c5StaleState =
      some { reload := false, err := false, state := c5StaleState } ∧
    (c5StaleState.feBinds "https").map MBind.sslCafile = ["old", "old"] ∧
    ("old" : String) ≠ "" := by
  refine ⟨rfl, by decide, by decide⟩

/-- The claim's scenario live state: HTTPS frontend with v4 and v6 binds
carrying no client-CA configuration. -/
def tlsScenState : APIState :=
  { frontends := [{ name := "https", mode := "http", logFormat := "",
                    defaultBackend := "" }]
    feBinds := fun n =>
      if n = "https" then
        [{ address := "1.2.3.4", port := 443, name := "v4",
           acceptProxy := false, v4v6 := false, sslCafile := "", verify := "" },
         { address := "::", port := 443, name := "v6",
           acceptProxy := false, v4v6 := true, sslCafile := "", verify := "" }]
      else []
    backends := []
    beServers := fun _ => []
    bsRules := fun _ => []
    muts := 0 }

/-- C5 witness (the claim's scenario): config map sets
client-ca=secret/ca-bundle, the live v4 and v6 binds have empty SslCafile;
after one pass both binds carry the resolved path and Verify="required",
and reload is signaled. -/
theorem c5_witness :
    ∃ s', handleClientTLSAuth (fun _ => none) (CaResult.found "path")
        (fun _ => true) [("client-ca", "secret/ca-bundle")] "https"
        tlsScenState =
      some { reload := true, err := false, state := s' } ∧
    (s'.feBinds "https").map (fun b => (b.sslCafile, b.verify)) =
      [("path", "required"), ("path", "required")] := by
  obtain ⟨s', hs, hb⟩ :=
    (c5_amended_client_tls (fun _ => none) (CaResult.found "path")
      (fun _ => true) [("client-ca", "secret/ca-bundle")] "https" tlsScenState
      { address := "1.2.3.4", port := 443, name := "v4", acceptProxy := false,
        v4v6 := false, sslCafile := "", verify := "" }
      [{ address := "::", port := 443, name := "v6", acceptProxy := false,
         v4v6 := true, sslCafile := "", verify := "" }]).2.2.2
      (by decide) rfl (by decide) (by decide) (fun _ => rfl) (by decide)
  exact ⟨s', hs, by rw [hb]; rfl⟩

/-! ## C6 -/

/-- C6 counterexample: with two live binds and the second bind-edit failing,
the first edit is applied (the v4 bind now carries the CA file) yet the
function returns reload=false — refuting "reload is signaled whenever any
bind change was applied". -/
theorem c6_partial_failure_no_reload :
    ((handleClientTLSAuth (fun _ => none) (CaResult.found "path")
        (fun i => i == 0) [("client-ca", "secret/ca")] "https"
        tlsScenState).map
      (fun o => (o.reload, o.err,
        (o.state.feBinds "https").map (fun b => (b.sslCafile, b.verify))))) =
      some (false, true, [("path", "required"), ("", "")]) ∧
    (("path", "required") : String × String) ≠ ("", "") := by
  exact ⟨rfl, by decide⟩

/-- C6 amended: during the multi-bind edit of the client-auth step, a failure
of any single bind-edit aborts editing of the remaining binds — the
function returns the error immediately, leaving the earlier-edited binds
in place (a mixed state) — but reload is signaled only when every bind
edit succeeds: on a partial failure the function returns reload=false even
though earlier bind changes were applied. -/
theorem c6_amended_partial_abort (pb : String → Option Bool) (caRes : CaResult)
    (eok : Nat → Bool) (cm : AnnMap) (fe : String) (s : APIState)
    (b0 : MBind) (rest : List MBind) (k : Nat)
    (hann : annGetValue "client-ca" [cm] ≠ "")
    (hbinds : s.feBinds fe = b0 :: rest)
    (hmatch : ¬(b0.sslCafile = caFileOf caRes ∧ b0.verify = verifyOf pb cm))
    (hnd : ((b0 :: rest).map MBind.name).Nodup)
    (hok : ∀ j, j < k → eok j = true) (hfail : eok k = false)
    (hk : k < (b0 :: rest).length) :
    ∃ s', handleClientTLSAuth pb caRes eok cm fe s =
        some { reload := false, err := true, state := s' } ∧
      s'.feBinds fe =
        ((b0 :: rest).take k).map
          (updBind (caFileOf caRes)
            (if caFileOf caRes = "" then "" else verifyOf pb cm)) ++
        (b0 :: rest).drop k := by
  have hok0 : ∀ j, j < k → eok (0 + j) = true := by
    intro j hj; simpa using hok j hj
  have hfail0 : eok (0 + k) = false := by simpa using hfail
  unfold handleClientTLSAuth
  rw [if_neg hann]
  simp only [APIState.bindsGet, hbinds]
  rw [if_neg hmatch]
  by_cases hca : caFileOf caRes = ""
  · rw [if_pos hca]
    rw [tlsEditLoop_first_failure eok fe "" "" (b0 :: rest) k 0 s hok0 hfail0 hk]
    refine ⟨_, rfl, ?_⟩
    have := foldl_bindEdit_feBinds fe "" "" ((b0 :: rest).take k) []
      ((b0 :: rest).drop k) s
      (by simpa [List.take_append_drop] using hbinds)
      (by simpa [List.take_append_drop] using hnd)
    simpa [hca] using this
  · rw [if_neg hca]
    rw [tlsEditLoop_first_failure eok fe (caFileOf caRes) (verifyOf pb cm)
      (b0 :: rest) k 0 s hok0 hfail0 hk]
    refine ⟨_, rfl, ?_⟩
    have := foldl_bindEdit_feBinds fe (caFileOf caRes) (verifyOf pb cm)
      ((b0 :: rest).take k) [] ((b0 :: rest).drop k) s
      (by simpa [List.take_append_drop] using hbinds)
      (by simpa [List.take_append_drop] using hnd)
    simpa [hca] using this

/-- C6 witness: a concrete partial failure — two binds, the second edit
fails: the result carries the error, reload=false, and a mixed state with
only the first bind rewritten. -/
theorem c6_witness :
    ∃ s', handleClientTLSAuth (fun _ => none) (CaResult.found "path")
        (fun i => i == 0) [("client-ca", "secret/ca")] "https" tlsScenState =
        some { reload := false, err := true, state := s' } ∧
      (s'.feBinds "https").map (fun b => (b.sslCafile, b.verify)) =
        [("path", "required"), ("", "")] := by
  obtain ⟨s', hs, hb⟩ := c6_amended_partial_abort (fun _ => none)
    (CaResult.found "path") (fun i => i == 0) [("client-ca", "secret/ca")]
    "https" tlsScenState
    { address := "1.2.3.4", port := 443, name := "v4", acceptProxy := false,
      v4v6 := false, sslCafile := "", verify := "" }
    [{ address := "::", port := 443, name := "v6", acceptProxy := false,
       v4v6 := true, sslCafile := "", verify := "" }] 1
    (by decide) rfl (by decide) (by decide)
    (by decide) (by decide) (by decide)
  exact ⟨s', hs, by rw [hb]; rfl⟩

/-! ## C2 -/

/-- C2 counterexample: the enable pass installs five rules on the passthrough
TCP frontend (the SNI fallback lookup is a separate conditional rule), not
four. -/
theorem c2_five_rules_not_four :
    ((sslPassthroughRules (fun _ => none) "snimap" [] "ssl" []).filter
      (fun e => e.2.1 = "ssl")).length = 5 ∧ (5 : Nat) ≠ 4 := by
  exact ⟨by decide, by decide⟩

/-- Inserting a rule absent from the registry (as a (content, frontend) pair)
appends it. -/
theorem addRule_fresh {R : Type} [DecidableEq R] (reg : List (R × String × Bool))
    (r : R) (ir : Bool) (fe : String)
    (h : ∀ e ∈ reg, ¬(e.1 = r ∧ e.2.1 = fe)) :
    addRule reg r ir fe = reg ++ [(r, fe, ir)] := by
  unfold addRule
  rw [if_neg]
  simp only [List.any_eq_true, decide_eq_true_eq, not_exists]
  intro e
  intro ⟨he, hc⟩
  exact h e he hc

/-- Folding registry inserts over a duplicate-free rule list whose
(content, frontend) pairs are all absent appends them in order. -/
theorem foldl_addRule_fresh {R : Type} [DecidableEq R] (fe : String) (ir : Bool) :
    ∀ (L : List R) (reg : List (R × String × Bool)),
      (∀ e ∈ reg, ¬(e.1 ∈ L ∧ e.2.1 = fe)) → L.Nodup →
      L.foldl (fun reg r => addRule reg r ir fe) reg =
        reg ++ L.map (fun r => (r, fe, ir)) := by
  intro L
  induction L with
  | nil => intro reg _ _; simp
  | cons r L' ih =>
    intro reg hfresh hnd
    simp only [List.foldl_cons]
    rw [addRule_fresh reg r ir fe
      (fun e he hc => hfresh e he ⟨by simp [hc.1], hc.2⟩)]
    rw [ih (reg ++ [(r, fe, ir)])
      (by
        intro e he hc
        rcases List.mem_append.mp he with h1 | h1
        · exact hfresh e h1 ⟨by simp [hc.1], hc.2⟩
        · simp only [List.mem_singleton] at h1
          subst h1
          exact (List.nodup_cons.mp hnd).1 hc.1)
      (List.nodup_cons.mp hnd).2]
    simp

/-- The five passthrough rules are pairwise distinct (the two SNI-match
rules differ in their guard, independently of the map path). -/
theorem sslPassthroughRulesList_nodup (pt : String → Option Int)
    (mp : String) (cm : AnnMap) : (sslPassthroughRulesList pt mp cm).Nodup := by
  unfold sslPassthroughRulesList
  simp only [List.nodup_cons, List.mem_cons, List.mem_singleton,
    List.not_mem_nil, or_false, List.nodup_nil, and_true]
  refine ⟨?_, ?_, ?_, ?_⟩
  · intro h
    rcases h with h | h | h | h <;> simp at h
  · intro h
    rcases h with h | h | h <;> simp at h
  · intro h
    rcases h with h | h <;> simp [TRule.reqSetVar.injEq] at h
  · constructor
    · intro h
      simp [TRule.reqSetVar.injEq] at h
    · simp

/-- The bind-toggle step edits only binds (and possibly re-applies offload
parameters): frontends, backends, servers and switching rules are
untouched. -/
theorem toggle_state_projections (h : HTTPSHandler) (p : Bool) (cfg : PTCfg)
    (s : APIState) :
    (toggleSSLPassthrough h p cfg s).frontends = s.frontends ∧
    (toggleSSLPassthrough h p cfg s).backends = s.backends ∧
    (toggleSSLPassthrough h p cfg s).beServers = s.beServers ∧
    (toggleSSLPassthrough h p cfg s).bsRules = s.bsRules := by
  unfold toggleSSLPassthrough
  have hfold : ∀ (l : List MBind) (s : APIState),
      (l.foldl (fun s b => s.bindEdit cfg.frontHTTPS b) s).frontends = s.frontends ∧
      (l.foldl (fun s b => s.bindEdit cfg.frontHTTPS b) s).backends = s.backends ∧
      (l.foldl (fun s b => s.bindEdit cfg.frontHTTPS b) s).beServers = s.beServers ∧
      (l.foldl (fun s b => s.bindEdit cfg.frontHTTPS b) s).bsRules = s.bsRules := by
    intro l
    induction l with
    | nil => intro s; exact ⟨rfl, rfl, rfl, rfl⟩
    | cons b l ih =>
      intro s
      simp only [List.foldl_cons]
      exact ih (s.bindEdit cfg.frontHTTPS b)
  by_cases hh : cfg.https = true
  · simp only [hh, if_true]
    exact hfold (h.bindList p) s
  · simp only [hh, if_false]
    exact hfold (h.bindList p) s

/-- With both IP families enabled and the live HTTPS bind list being the
v4/v6 pair, the bind-toggle step rewrites it to exactly `bindList p`. -/
theorem toggle_feBinds_https (h : HTTPSHandler) (p : Bool) (cfg : PTCfg)
    (s : APIState) (c4 c6 : MBind) (hip4 : h.ipv4 = true) (hip6 : h.ipv6 = true)
    (hb : s.feBinds cfg.frontHTTPS = [c4, c6]) (h4 : c4.name = "v4")
    (h6 : c6.name = "v6") :
    (toggleSSLPassthrough h p cfg s).feBinds cfg.frontHTTPS = h.bindList p := by
  unfold toggleSSLPassthrough
  have hcore : ((h.bindList p).foldl
      (fun s b => s.bindEdit cfg.frontHTTPS b) s).feBinds cfg.frontHTTPS =
      h.bindList p := by
    simp only [HTTPSHandler.bindList, hip4, hip6, if_true, List.cons_append,
      List.nil_append, List.foldl_cons, List.foldl_nil]
    simp [APIState.bindEdit, editByName, hb, h4, h6]
  by_cases hh : cfg.https = true
  · simp only [hh, if_true, APIState.enableSSLOffload]
    exact hcore
  · simp only [hh, if_false]
    exact hcore

/-- Creating binds touches nothing but the edited frontend's bind list. -/
theorem foldl_bindCreate_projections (fe : String) :
    ∀ (l : List MBind) (s : APIState),
      ((l.foldl (fun s b => s.bindCreate fe b) s).frontends = s.frontends ∧
       (l.foldl (fun s b => s.bindCreate fe b) s).backends = s.backends ∧
       (l.foldl (fun s b => s.bindCreate fe b) s).beServers = s.beServers ∧
       (l.foldl (fun s b => s.bindCreate fe b) s).bsRules = s.bsRules) ∧
      ∀ n, n ≠ fe →
        (l.foldl (fun s b => s.bindCreate fe b) s).feBinds n = s.feBinds n := by
  intro l
  induction l with
  | nil => intro s; exact ⟨⟨rfl, rfl, rfl, rfl⟩, fun n _ => rfl⟩
  | cons b l ih =>
    intro s
    simp only [List.foldl_cons]
    obtain ⟨⟨hf, hb, hs, hr⟩, hn⟩ := ih (s.bindCreate fe b)
    refine ⟨⟨hf, hb, hs, hr⟩, ?_⟩
    intro n hne
    rw [hn n hne]
    simp [APIState.bindCreate, hne]

/-- The frontend list after the enable pass: the passthrough TCP frontend is
appended. -/
theorem enable_frontends (h : HTTPSHandler) (cfg : PTCfg) (s0 : APIState) :
    (enableSSLPassthrough h cfg s0).frontends =
      s0.frontends ++
        [⟨cfg.frontSSL, "tcp", passthroughLogFormat, cfg.backSSL⟩] := by
  unfold enableSSLPassthrough
  rw [(toggle_state_projections h true cfg _).1]
  simp only [APIState.bsRuleCreate, APIState.serverCreate, APIState.backendCreate]
  rw [((foldl_bindCreate_projections cfg.frontSSL (h.bindList false) _).1).1]
  simp [APIState.frontendCreate]

/-- The backend list after the enable pass: the chaining backend is appended. -/
theorem enable_backends (h : HTTPSHandler) (cfg : PTCfg) (s0 : APIState) :
    (enableSSLPassthrough h cfg s0).backends =
      s0.backends ++ [⟨cfg.backSSL, "tcp"⟩] := by
  unfold enableSSLPassthrough
  rw [(toggle_state_projections h true cfg _).2.1]
  simp only [APIState.bsRuleCreate, APIState.serverCreate, APIState.backendCreate]
  rw [((foldl_bindCreate_projections cfg.frontSSL (h.bindList false) _).1).2.1]
  simp [APIState.frontendCreate]

/-- The chaining backend's server list after the enable pass: exactly the one
server pointing at the HTTPS frontend's loopback with send-proxy-v2. -/
theorem enable_beServers (h : HTTPSHandler) (cfg : PTCfg) (s0 : APIState) :
    (enableSSLPassthrough h cfg s0).beServers cfg.backSSL =
      [⟨cfg.frontHTTPS, "127.0.0.1", h.port, "enabled"⟩] := by
  unfold enableSSLPassthrough
  rw [(toggle_state_projections h true cfg _).2.2.1]
  simp [APIState.bsRuleCreate, APIState.serverCreate, APIState.backendCreate]

/-- The HTTPS frontend's binds after the enable pass: exactly the loopback
chaining bind list. -/
theorem enable_feBinds_https (h : HTTPSHandler) (cfg : PTCfg) (s0 : APIState)
    (b4 b6 : MBind) (hip4 : h.ipv4 = true) (hip6 : h.ipv6 = true)
    (hbinds : s0.feBinds cfg.frontHTTPS = [b4, b6]) (h4 : b4.name = "v4")
    (h6 : b6.name = "v6") (hne : cfg.frontHTTPS ≠ cfg.frontSSL) :
    (enableSSLPassthrough h cfg s0).feBinds cfg.frontHTTPS = h.bindList true := by
  unfold enableSSLPassthrough
  refine toggle_feBinds_https h true cfg _ b4 b6 hip4 hip6 ?_ h4 h6
  simp only [APIState.bsRuleCreate, APIState.serverCreate, APIState.backendCreate]
  rw [(foldl_bindCreate_projections cfg.frontSSL (h.bindList false) _).2
    cfg.frontHTTPS hne]
  simp [APIState.frontendCreate, hne, hbinds]

/-- The disable pass filters the passthrough frontend out of the frontend
list, filters the chaining backend out of the backend list, filters the
passthrough frontend's rules out of the registry, and (given the v4/v6
bind shape) reverts the HTTPS frontend's binds to the external bind list. -/
theorem disable_projections (h : HTTPSHandler) (cfg : PTCfg) (s1 : APIState)
    (reg1 : List (TRule × String × Bool)) :
    (disableSSLPassthrough h cfg s1 reg1).1.frontends =
      s1.frontends.filter (fun f => f.name ≠ cfg.frontSSL) ∧
    (disableSSLPassthrough h cfg s1 reg1).1.backends =
      s1.backends.filter (fun b => b.name ≠ cfg.backSSL) ∧
    (disableSSLPassthrough h cfg s1 reg1).2 =
      reg1.filter (fun e => e.2.1 ≠ cfg.frontSSL) := by
  unfold disableSSLPassthrough
  refine ⟨?_, ?_, rfl⟩
  · rw [(toggle_state_projections h false cfg _).1]
    simp [APIState.backendDelete, APIState.frontendDelete]
  · rw [(toggle_state_projections h false cfg _).2.1]
    simp [APIState.backendDelete, APIState.frontendDelete]

/-- The HTTPS frontend's binds after the disable pass, starting from the
loopback chaining pair: the external bind list. -/
theorem disable_feBinds_https (h : HTTPSHandler) (cfg : PTCfg) (s1 : APIState)
    (reg1 : List (TRule × String × Bool)) (c4 c6 : MBind)
    (hip4 : h.ipv4 = true) (hip6 : h.ipv6 = true)
    (hbinds : s1.feBinds cfg.frontHTTPS = [c4, c6]) (h4 : c4.name = "v4")
    (h6 : c6.name = "v6") (hne : cfg.frontHTTPS ≠ cfg.frontSSL) :
    (disableSSLPassthrough h cfg s1 reg1).1.feBinds cfg.frontHTTPS =
      h.bindList false := by
  unfold disableSSLPassthrough
  refine toggle_feBinds_https h false cfg _ c4 c6 hip4 hip6 ?_ h4 h6
  simp [APIState.backendDelete, APIState.frontendDelete, hne, hbinds]

/-- C2 amended: toggling ssl-passthrough from absent/false to true creates
exactly one TCP frontend, one chaining backend containing exactly one
server, and five rules on that TCP frontend (accept-content,
inspect-delay, SNI extraction, SNI map lookup, and the separate guarded
fallback lookup), and changes both HTTPS binds (v4 and v6) to loopback
addresses; toggling back to false deletes the TCP frontend, its rules, and
the chaining backend, and restores the HTTPS binds to the external
addresses. -/
theorem c2_amended_passthrough_lifecycle (h : HTTPSHandler) (cfg : PTCfg)
    (pt : String → Option Int) (mp : String) (cm : AnnMap) (s0 : APIState)
    (reg0 : List (TRule × String × Bool)) (b4 b6 : MBind)
    (hip4 : h.ipv4 = true) (hip6 : h.ipv6 = true)
    (hf : ∀ f ∈ s0.frontends, f.name ≠ cfg.frontSSL)
    (hbk : ∀ b ∈ s0.backends, b.name ≠ cfg.backSSL)
    (hbinds : s0.feBinds cfg.frontHTTPS = [b4, b6])
    (h4 : b4.name = "v4") (h6 : b6.name = "v6")
    (hne : cfg.frontHTTPS ≠ cfg.frontSSL)
    (hreg : ∀ e ∈ reg0, e.2.1 ≠ cfg.frontSSL) :
    ((enableSSLPassthrough h cfg s0).frontends.filter
        (fun f => f.name = cfg.frontSSL)) =
      [⟨cfg.frontSSL, "tcp", passthroughLogFormat, cfg.backSSL⟩] ∧
    ((enableSSLPassthrough h cfg s0).backends.filter
        (fun b => b.name = cfg.backSSL)) = [⟨cfg.backSSL, "tcp"⟩] ∧
    (enableSSLPassthrough h cfg s0).beServers cfg.backSSL =
      [⟨cfg.frontHTTPS, "127.0.0.1", h.port, "enabled"⟩] ∧
    ((sslPassthroughRules pt mp cm cfg.frontSSL reg0).filter
        (fun e => e.2.1 = cfg.frontSSL)).length = 5 ∧
    (enableSSLPassthrough h cfg s0).feBinds cfg.frontHTTPS = h.bindList true ∧
    (h.bindList true).map MBind.address = ["127.0.0.1", "::1"] ∧
    (disableSSLPassthrough h cfg (enableSSLPassthrough h cfg s0)
        (sslPassthroughRules pt mp cm cfg.frontSSL reg0)).1.frontendExists
      cfg.frontSSL = false ∧
    ((disableSSLPassthrough h cfg (enableSSLPassthrough h cfg s0)
        (sslPassthroughRules pt mp cm cfg.frontSSL reg0)).1.backends.filter
      (fun b => b.name = cfg.backSSL)) = [] ∧
    ((disableSSLPassthrough h cfg (enableSSLPassthrough h cfg s0)
        (sslPassthroughRules pt mp cm cfg.frontSSL reg0)).2.filter
      (fun e => e.2.1 = cfg.frontSSL)) = [] ∧
    (disableSSLPassthrough h cfg (enableSSLPassthrough h cfg s0)
        (sslPassthroughRules pt mp cm cfg.frontSSL reg0)).1.feBinds
      cfg.frontHTTPS = h.bindList false ∧
    (h.bindList false).map MBind.address = [h.addrIPv4, h.addrIPv6] := by
  have hbt : h.bindList true =
      [{ address := "127.0.0.1", port := h.port, name := "v4",
         acceptProxy := true, v4v6 := false, sslCafile := "", verify := "" },
       { address := "::1", port := h.port, name := "v6",
         acceptProxy := true, v4v6 := true, sslCafile := "", verify := "" }] := by
    simp [HTTPSHandler.bindList, hip4, hip6]
  have hreg1 : sslPassthroughRules pt mp cm cfg.frontSSL reg0 =
      reg0 ++ (sslPassthroughRulesList pt mp cm).map
        (fun r => (r, cfg.frontSSL, false)) := by
    unfold sslPassthroughRules
    exact foldl_addRule_fresh cfg.frontSSL false _ reg0
      (fun e he hc => hreg e he hc.2) (sslPassthroughRulesList_nodup pt mp cm)
  have hbindsE := enable_feBinds_https h cfg s0 b4 b6 hip4 hip6 hbinds h4 h6 hne
  refine ⟨?_, ?_, enable_beServers h cfg s0, ?_, hbindsE, ?_, ?_, ?_, ?_, ?_, ?_⟩
  · rw [enable_frontends, List.filter_append]
    rw [List.filter_eq_nil_iff.mpr (by intro f hfm; simpa using hf f hfm)]
    simp
  · rw [enable_backends, List.filter_append]
    rw [List.filter_eq_nil_iff.mpr (by intro b hbm; simpa using hbk b hbm)]
    simp
  · rw [hreg1, List.filter_append]
    rw [List.filter_eq_nil_iff.mpr (by
      intro e hem
      simpa using hreg e hem)]
    simp [sslPassthroughRulesList]
  · rw [hbt]; rfl
  · rw [APIState.frontendExists, (disable_projections h cfg _ _).1]
    simp only [List.any_eq_false]
    intro f hfm
    have := List.of_mem_filter hfm
    simp at this ⊢
    exact this
  · rw [(disable_projections h cfg _ _).2.1]
    apply List.filter_eq_nil_iff.mpr
    intro b hbm
    have := List.of_mem_filter hbm
    simp at this ⊢
    exact this
  · rw [(disable_projections h cfg _ _).2.2]
    apply List.filter_eq_nil_iff.mpr
    intro e hem
    have := List.of_mem_filter hem
    simp at this ⊢
    exact this
  · exact disable_feBinds_https h cfg _ _
      { address := "127.0.0.1", port := h.port, name := "v4",
        acceptProxy := true, v4v6 := false, sslCafile := "", verify := "" }
      { address := "::1", port := h.port, name := "v6",
        acceptProxy := true, v4v6 := true, sslCafile := "", verify := "" }
      hip4 hip6 (by rw [hbindsE, hbt]) rfl rfl hne
  · simp [HTTPSHandler.bindList, hip4, hip6]

/-- C2 witness: a concrete toggle starting from an HTTPS frontend with
external v4/v6 binds — the rules installed on the TCP frontend number
five, and both HTTPS binds become loopback addresses. -/
theorem c2_witness :
    (({ enabled := true, ipv4 := true, ipv6 := true, port := 443,
        addrIPv4 := "1.2.3.4", addrIPv6 := "::", certDir := "certs",
        alpn := "" } : HTTPSHandler).bindList true).map MBind.address =
      ["127.0.0.1", "::1"] ∧
    ((sslPassthroughRules (fun _ => none) "snimap" [] "ssl" []).filter
      (fun e => e.2.1 = "ssl")).length = 5 := by
  have H := c2_amended_passthrough_lifecycle
    { enabled := true, ipv4 := true, ipv6 := true, port := 443,
      addrIPv4 := "1.2.3.4", addrIPv6 := "::", certDir := "certs", alpn := "" }
    { frontHTTP := "http", frontHTTPS := "https", frontSSL := "ssl",
      backSSL := "sslbk", https := false, sslPassthrough := false }
    (fun _ => none) "snimap" [] tlsScenState []
    { address := "1.2.3.4", port := 443, name := "v4", acceptProxy := false,
      v4v6 := false, sslCafile := "", verify := "" }
    { address := "::", port := 443, name := "v6", acceptProxy := false,
      v4v6 := true, sslCafile := "", verify := "" }
    rfl rfl (by decide) (by decide) rfl rfl rfl (by decide) (by simp)
  exact ⟨H.2.2.2.2.2.1, H.2.2.2.1⟩

/-! ## C4 -/

/-- When the client-ca annotation is absent, or the first live bind already
carries the resolved CA file and verify mode, the client-TLS-auth step
issues no edit and leaves the state untouched. -/
theorem handleClientTLSAuth_noop (pb : String → Option Bool) (caRes : CaResult)
    (eok : Nat → Bool) (cm : AnnMap) (fe : String) (s : APIState)
    (h : annGetValue "client-ca" [cm] = "" ∨
      ∃ b0 rest, s.feBinds fe = b0 :: rest ∧ b0.sslCafile = caFileOf caRes ∧
        b0.verify = verifyOf pb cm) :
    ∃ e, handleClientTLSAuth pb caRes eok cm fe s =
      some { reload := false, err := e, state := s } := by
  by_cases hann : annGetValue "client-ca" [cm] = ""
  · exact ⟨false, by simp [handleClientTLSAuth, hann]⟩
  · rcases h with h | ⟨b0, rest, hb, hca, hv⟩
    · exact absurd h hann
    · refine ⟨decide (caRes = CaResult.otherErr), ?_⟩
      unfold handleClientTLSAuth
      rw [if_neg hann]
      simp only [APIState.bindsGet, hb]
      rw [if_pos ⟨hca, hv⟩]

/-- C4: a second reconciliation pass over unchanged state is a no-op —
`HTTPS.Update`, when the configuration's HTTPS flag matches certificate
availability, the SSLPassthrough flag matches the live passthrough
frontend's existence, the client-TLS-auth state is unchanged and
certificates are not updated, issues no create/edit/delete call (the API
state is returned untouched) and signals no reload; and `globalCfg` and
`defaultsCfg`, when the live sections and log targets equal the desired
ones and no snippet changed, push nothing and return
(reload=false, restart=false). -/
theorem c4_second_run_noop (G L D : Type) [DecidableEq G] [DecidableEq L]
    [DecidableEq D] (h : HTTPSHandler) (pb : String → Option Bool)
    (pt : String → Option Int) (smp : String) (ce : Bool) (caRes : CaResult)
    (eok : Nat → Bool) (cm : AnnMap) (cfg : PTCfg) (s : APIState)
    (reg : List (TRule × String × Bool)) (gin : GlobalIn G L)
    (din : DefaultsIn D)
    (hce : ce = cfg.https)
    (hpt : cfg.sslPassthrough = s.frontendExists cfg.frontSSL)
    (htls : annGetValue "client-ca" [cm] = "" ∨
      ∃ b0 rest, s.feBinds cfg.frontHTTPS = b0 :: rest ∧
        b0.sslCafile = caFileOf caRes ∧ b0.verify = verifyOf pb cm)
    (hg : gin.liveGlobal = some (globalDesired gin))
    (hlg : gin.liveLg = some (globalDesiredLg gin))
    (hsn1 : gin.globalSnippUpdated = false)
    (hsn2 : gin.frontendSnippUpdated = false)
    (hd : din.liveDefaults = some (defaultsDesired din)) :
    (∃ u, HTTPSUpdate h pb pt smp ce false caRes eok cm cfg s reg = some u ∧
      u.state = s ∧ u.reload = false ∧ u.cfg = cfg) ∧
    globalCfg gin = { reload := false, restart := false, pushedGlobal := none,
                      recreatedLg := none, muts := 0 } ∧
    defaultsCfg din = { reload := false, pushedDefaults := none, muts := 0 } := by
  refine ⟨?_, ?_, ?_⟩
  · by_cases he : h.enabled = true
    · obtain ⟨e, heq⟩ := handleClientTLSAuth_noop pb caRes eok cm
        cfg.frontHTTPS s htls
      by_cases hh : cfg.https = true
      · by_cases hE : e = true
        · refine ⟨⟨false, true, cfg, s, reg, false⟩, ?_, rfl, rfl, rfl⟩
          unfold HTTPSUpdate updateOffloadStep
          rw [if_neg (by simp [he])]
          simp [hce, hh, heq, hE]
        · by_cases hsp : cfg.sslPassthrough = true
          · refine ⟨⟨false, false, cfg, s,
                sslPassthroughRules pt smp cm cfg.frontSSL reg, false⟩,
                ?_, rfl, rfl, rfl⟩
            unfold HTTPSUpdate updateOffloadStep updatePassthroughStep
            rw [if_neg (by simp [he])]
            simp [hce, hh, heq, hE, hsp, ← hpt]
          · refine ⟨⟨false, false, cfg, s, reg, false⟩, ?_, rfl, rfl, rfl⟩
            unfold HTTPSUpdate updateOffloadStep updatePassthroughStep
            rw [if_neg (by simp [he])]
            simp [hce, hh, heq, hE, hsp, ← hpt]
      · by_cases hsp : cfg.sslPassthrough = true
        · refine ⟨⟨false, false, cfg, s,
              sslPassthroughRules pt smp cm cfg.frontSSL reg, false⟩,
              ?_, rfl, rfl, rfl⟩
          unfold HTTPSUpdate updateOffloadStep updatePassthroughStep
          rw [if_neg (by simp [he])]
          simp [hce, hh, hsp, ← hpt]
        · refine ⟨⟨false, false, cfg, s, reg, false⟩, ?_, rfl, rfl, rfl⟩
          unfold HTTPSUpdate updateOffloadStep updatePassthroughStep
          rw [if_neg (by simp [he])]
          simp [hce, hh, hsp, ← hpt]
    · refine ⟨⟨false, false, cfg, s, reg, false⟩, ?_, rfl, rfl, rfl⟩
      rw [HTTPSUpdate, if_pos he]
  · simp [globalCfg, hg, hlg, hsn1, hsn2]
  · simp [defaultsCfg, hd]

/-- C4 witness: a concrete second pass — offload already on with no client-CA
annotation, passthrough off with no passthrough frontend, certificates not
updated, Global/Defaults equal to live — returns the state untouched with
no reload and no restart. -/
theorem c4_witness :
    (∃ u, HTTPSUpdate
        { enabled := true, ipv4 := true, ipv6 := true, port := 443,
          addrIPv4 := "1.2.3.4", addrIPv6 := "::", certDir := "certs",
          alpn := "" }
        (fun _ => none) (fun _ => none) "snimap" true false CaResult.notFound
        (fun _ => true) []
        { frontHTTP := "http", frontHTTPS := "https", frontSSL := "ssl",
          backSSL := "sslbk", https := true, sslPassthrough := false }
        tlsScenState [] = some u ∧
      u.state = tlsScenState ∧ u.reload = false ∧
      u.cfg = { frontHTTP := "http", frontHTTPS := "https", frontSSL := "ssl",
                backSSL := "sslbk", https := true, sslPassthrough := false }) ∧
    globalCfg { liveGlobal := some 3, liveLg := some 4, crGlobal := none,
                annGlobal := 3, annLg := 4, zeroLg := 0, env := id,
                globalSnippUpdated := false, frontendSnippUpdated := false
                : GlobalIn Nat Nat } =
      { reload := false, restart := false, pushedGlobal := none,
        recreatedLg := none, muts := 0 } ∧
    defaultsCfg { liveDefaults := some 5, crDefaults := none, annDefaults := 5,
                  setD := id, pushOk := true : DefaultsIn Nat } =
      { reload := false, pushedDefaults := none, muts := 0 } := by
  have H := c4_second_run_noop Nat Nat Nat
    { enabled := true, ipv4 := true, ipv6 := true, port := 443,
      addrIPv4 := "1.2.3.4", addrIPv6 := "::", certDir := "certs", alpn := "" }
    (fun _ => none) (fun _ => none) "snimap" true CaResult.notFound
    (fun _ => true) []
    { frontHTTP := "http", frontHTTPS := "https", frontSSL := "ssl",
      backSSL := "sslbk", https := true, sslPassthrough := false }
    tlsScenState []
    { liveGlobal := some 3, liveLg := some 4, crGlobal := none, annGlobal := 3,
      annLg := 4, zeroLg := 0, env := id, globalSnippUpdated := false,
      frontendSnippUpdated := false }
    { liveDefaults := some 5, crDefaults := none, annDefaults := 5,
      setD := id, pushOk := true }
    rfl (by decide) (Or.inl rfl) rfl rfl rfl rfl rfl
  exact H
